import Mathlib

/-!
# Alicloud Terraform provider: CDN domain and log project resources

A shallow embedding of `alicloud/resource_alicloud_cdn_domain.go`,
`alicloud/resource_alicloud_log_project.go` and the vendored RDS client method
`UpgradeDBInstanceNetWorkInfoWithChan`.

Cloud calls are modelled by explicit state passing: the value `Meta` carries the scripted
outcomes of the remote calls together with a log of the calls made so far.  Package
level constants and helpers that live in other files of the provider (`DefaultTimeout`,
`IsExceptedError`, ...) are fields of the structure `Common`.
-/

namespace Alicloud

/-! ## Errors -/

/-- An error value handed back by a cloud SDK client: its code, the text of `Error()`
(what `%s` prints) and its Go-syntax rendering (what `%#v` prints). -/
structure SdkError where
  code : String
  text : String
  goSyntax : String
  deriving DecidableEq, Repr

/-- Go `error` values as the provider code produces them: an SDK error passed on
unchanged, or an error built with `fmt.Errorf`. -/
inductive GoError where
  | sdk (e : SdkError)
  | errorf (text : String)
  deriving DecidableEq, Repr

/-- The method `Error()` of an error value, which is what the verb `%s` prints. -/
def GoError.Error : GoError → String
  | .sdk e => e.text
  | .errorf text => text

/-! ## Constants and helpers defined elsewhere in the provider -/

/-- Package-level constants and helper functions used by the two resource files and
declared in other files of package `alicloud`. -/
structure Common where
  DefaultTimeout : Int
  DefaultIntervalShort : Int
  Configuring : String
  LiveStream : String
  CharityPageUrl : String
  ProjectNotExist : String
  LogClientTimeout : String
  ServiceBusy : String
  GetTimeoutMessage : String → String → String
  GetTimeErrorFromString : String → GoError
  IsExceptedError : GoError → String → Bool
  IsExceptedErrors : GoError → List String → Bool
  expandStringList : List String → List String

/-! ## Requests, responses and the call log -/

/-- The request `cdn.AddDomainRequest`, with the fields the provider fills in. -/
structure AddDomainRequest where
  DomainName : String := ""
  CdnType : String := ""
  SourceType : String := ""
  SourcePort : Int := 0
  Sources : String := ""
  Scope : String := ""
  deriving DecidableEq, Repr

/-- The request `cdn.ErrorPageConfigRequest`. -/
structure ErrorPageConfigRequest where
  DomainName : String := ""
  PageType : String := ""
  CustomPageUrl : String := ""
  deriving DecidableEq, Repr

/-- The request `cdn.ReqAuthConfigRequest`. -/
structure ReqAuthConfigRequest where
  DomainName : String := ""
  AuthType : String := ""
  Key1 : String := ""
  Key2 : String := ""
  Timeout : String := ""
  deriving DecidableEq, Repr

/-- The response model `cdn.DomainDetail`, with the fields the provider reads. -/
structure DomainDetail where
  DomainName : String := ""
  CdnType : String := ""
  SourceType : String := ""
  Scope : String := ""
  DomainStatus : String := ""
  Sources : List String := []
  deriving DecidableEq, Repr

/-- The response `cdn.DomainResponse`. -/
structure DomainResponse where
  GetDomainDetailModel : DomainDetail := {}
  deriving DecidableEq, Repr

/-- The project record `sls.LogProject`, with the fields the provider reads. -/
structure LogProject where
  Name : String := ""
  Description : String := ""
  deriving DecidableEq, Repr

/-- One entry of the call log: a remote call with its request, or a `time.Sleep`. -/
inductive Call where
  | AddCdnDomain (args : AddDomainRequest)
  | DescribeCdnDomainDetail (DomainName : String)
  | Sleep (seconds : Int)
  | SetErrorPageConfig (args : ErrorPageConfigRequest)
  | SetReqAuthConfig (args : ReqAuthConfigRequest)
  | GetProject (name : String)
  | DeleteProject (name : String)
  | CheckProjectExist (name : String)
  | resourceAlicloudCdnDomainUpdate (id : String)
  | CreateProject (name : String) (description : String)
  | DeleteCdnDomain (DomainName : String)
  deriving DecidableEq, Repr

/-- Whether a log entry is a `DescribeCdnDomainDetail` call. -/
def Call.isDescribe : Call → Bool
  | .DescribeCdnDomainDetail _ => true
  | _ => false

/-- Whether a log entry is a `time.Sleep`. -/
def Call.isSleep : Call → Bool
  | .Sleep _ => true
  | _ => false

/-- The provider handle `meta`: the scripted outcomes of the remote calls and the log of
the calls made so far.  `DescribeCdnDomainDetail n` is the outcome of the call with
index `n`, counted from `0`; `described` is the number of such calls already made.  The
other outcomes depend on the request only. -/
structure Meta where
  AddCdnDomain : AddDomainRequest → Option SdkError
  DescribeCdnDomainDetail : Nat → Except SdkError DomainResponse
  SetErrorPageConfig : ErrorPageConfigRequest → Option SdkError
  SetReqAuthConfig : ReqAuthConfigRequest → Option SdkError
  GetProject : String → Except SdkError LogProject
  DeleteProject : String → Option SdkError
  CheckProjectExist : String → Except SdkError Bool
  CreateProject : String → String → Except SdkError LogProject
  DeleteCdnDomain : String → Option SdkError
  described : Nat := 0
  log : List Call := []

/-- Number of `DescribeCdnDomainDetail` calls in a log. -/
def describes (log : List Call) : Nat := log.countP Call.isDescribe

/-- Number of `time.Sleep` calls in a log. -/
def sleeps (log : List Call) : Nat := log.countP Call.isSleep

/-! ## `DescribeDomainDetail` and `WaitForDomainStatus` -/

/-- The handle after one more `DescribeCdnDomainDetail` call for the domain `Id`. -/
def Meta.afterDescribe (m : Meta) (Id : String) : Meta :=
  { m with
    described := m.described + 1,
    log := m.log ++ [Call.DescribeCdnDomainDetail Id] }

/-- The function `DescribeDomainDetail(Id, meta)`: one `DescribeCdnDomainDetail` call; an
SDK error `e` is wrapped by `fmt.Errorf("DescribeCdnDomainDetail got an error: %#v", e)`. -/
def DescribeDomainDetail (Id : String) (m : Meta) : Except GoError DomainDetail × Meta :=
  match m.DescribeCdnDomainDetail m.described with
  | .error e =>
    (.error (.errorf ("DescribeCdnDomainDetail got an error: " ++ e.goSyntax)),
      m.afterDescribe Id)
  | .ok response => (.ok response.GetDomainDetailModel, m.afterDescribe Id)

/-- The call `time.Sleep(seconds * time.Second)`. -/
def Meta.Sleep (m : Meta) (seconds : Int) : Meta :=
  { m with log := m.log ++ [Call.Sleep seconds] }

/-- The `for` loop of `WaitForDomainStatus`.  The loop has no bound of its own in the
source, so the embedding takes a number of iterations `fuel`; when that number does not
suffice the result is `none`, and the handle is the one reached so far.  A result
`some none` is the return value `nil`, and `some (some err)` is the error `err`.  With a
positive interval and a positive timeout the subtraction stays above `-2^63`, so it is
taken in `Int` as it stands. -/
def WaitForDomainStatus.loop (c : Common) (Id : String) (status : String) :
    Nat → Int → Meta → Option (Option GoError) × Meta
  | 0, _, m => (none, m)
  | fuel + 1, timeout, m =>
    match DescribeDomainDetail Id m with
    | (.error err, m) => (some (some err), m)
    | (.ok domain, m) =>
      if domain.DomainStatus = status then (some none, m)
      else
        let timeout := timeout - c.DefaultIntervalShort
        if timeout ≤ 0 then
          (some (some (c.GetTimeErrorFromString (c.GetTimeoutMessage "Domain" status))), m)
        else WaitForDomainStatus.loop c Id status fuel timeout (m.Sleep c.DefaultIntervalShort)

/-- The timeout `WaitForDomainStatus` works with: `DefaultTimeout` replaces a timeout that
is not positive. -/
def effectiveTimeout (c : Common) (timeout : Int) : Int :=
  if timeout ≤ 0 then c.DefaultTimeout else timeout

/-- The function `WaitForDomainStatus(Id, status, timeout, meta)`; the result is the
returned error, as for the loop, and the handle after the calls. -/
def WaitForDomainStatus (c : Common) (fuel : Nat) (Id : String) (status : String)
    (timeout : Int) (m : Meta) : Option (Option GoError) × Meta :=
  WaitForDomainStatus.loop c Id status fuel (effectiveTimeout c timeout) m

/-- The quotient `T / k` rounded up, as a natural number. -/
def ceilDiv (T k : Int) : Nat := ((T + k - 1) / k).toNat

/-- The poll with index `i` succeeds and reports the status `status`. -/
def pollHits (m : Meta) (status : String) (i : Nat) : Bool :=
  match m.DescribeCdnDomainDetail i with
  | .ok r => decide (r.GetDomainDetailModel.DomainStatus = status)
  | .error _ => false

/-- The poll with index `i` succeeds and reports a status other than `status`. -/
def pollMisses (m : Meta) (status : String) (i : Nat) : Bool :=
  match m.DescribeCdnDomainDetail i with
  | .ok r => decide (r.GetDomainDetailModel.DomainStatus ≠ status)
  | .error _ => false

/-- The poll with index `i` fails with the SDK error `e`. -/
def pollFails (m : Meta) (i : Nat) (e : SdkError) : Prop :=
  m.DescribeCdnDomainDetail i = .error e

/-- The log entries of a wait that stops at its poll number `i` (counted from `0`):
each earlier poll is followed by one sleep of `k` seconds. -/
def pollTrace (Id : String) (k : Int) : Nat → List Call
  | 0 => [Call.DescribeCdnDomainDetail Id]
  | i + 1 => Call.DescribeCdnDomainDetail Id :: Call.Sleep k :: pollTrace Id k i

/-- The error `WaitForDomainStatus` returns when the time is used up. -/
def waitTimeoutError (c : Common) (status : String) : GoError :=
  c.GetTimeErrorFromString (c.GetTimeoutMessage "Domain" status)

/-- The error `DescribeDomainDetail` returns when the SDK call fails with `e`. -/
def describeError (e : SdkError) : GoError :=
  .errorf ("DescribeCdnDomainDetail got an error: " ++ e.goSyntax)

/-! ## `resourceAlicloudCdnDomainCreate` -/

/-- The `schema.ResourceData` of an `alicloud_cdn_domain` resource, with the attributes
that `resourceAlicloudCdnDomainCreate` reads.  `domain_name` and `cdn_type` are required
by the schema; an optional attribute that is not set is `none`. -/
structure CdnDomainData where
  id : String := ""
  domain_name : String
  cdn_type : String
  source_type : Option String := none
  source_port : Option Int := none
  sources : Option (List String) := none
  scope : Option String := none
  deriving DecidableEq, Repr

/-- The call `d.Get("source_port").(int)`: the value set, or the schema default `80`. -/
def CdnDomainData.getSourcePort (d : CdnDomainData) : Int := d.source_port.getD 80

/-- The call `d.GetOk(key)` on a string attribute: the value, and whether the attribute
is set to something other than the zero value `""`. -/
def GetOkString (v : Option String) : String × Bool :=
  (v.getD "", decide (v.isSome = true ∧ v.getD "" ≠ ""))

/-- The call `d.GetOk(key)` on a set attribute: the elements in the order of
`Set.List()`, and whether the attribute is set.  The caller tests `Len() > 0` itself. -/
def GetOkSet (v : Option (List String)) : List String × Bool :=
  (v.getD [], v.isSome)

/-- The function `strings.Join(elems, sep)`. -/
def stringsJoin (elems : List String) (sep : String) : String := sep.intercalate elems

/-- Lines 261-284 of `resourceAlicloudCdnDomainCreate`: the request is built from the
configuration, or validation fails with an error. -/
def resourceAlicloudCdnDomainCreate.args (c : Common) (d : CdnDomainData) :
    Except GoError AddDomainRequest :=
  let args : AddDomainRequest :=
    { DomainName := d.domain_name, CdnType := d.cdn_type, SourcePort := d.getSourcePort }
  let args : AddDomainRequest :=
    if (GetOkString d.scope).2 then { args with Scope := (GetOkString d.scope).1 } else args
  if args.CdnType ≠ c.LiveStream then
    if (GetOkSet d.sources).2 && decide ((GetOkSet d.sources).1.length > 0) then
      let sources := c.expandStringList (GetOkSet d.sources).1
      let args : AddDomainRequest := { args with Sources := stringsJoin sources "," }
      if (GetOkString d.source_type).2 && decide ((GetOkString d.source_type).1 ≠ "") then
        .ok { args with SourceType := (GetOkString d.source_type).1 }
      else
        .error (.errorf "SourceType is required when 'cdn_type' is not 'liveStream'.")
    else
      .error (.errorf "Sources is required when 'cdn_type' is not 'liveStream'.")
  else .ok args

/-- The handle after one more logged call. -/
def Meta.call (m : Meta) (call : Call) : Meta :=
  { m with log := m.log ++ [call] }

/-- The function `resourceAlicloudCdnDomainCreate(d, meta)`.  The function
`resourceAlicloudCdnDomainUpdate`, to which `Create` hands over in its last line, is the
argument `update`; its invocation is entered in the log.  The result is the returned
error (as for `WaitForDomainStatus`), the resource data and the handle. -/
def resourceAlicloudCdnDomainCreate (c : Common)
    (update : CdnDomainData → Option GoError × CdnDomainData) (fuel : Nat)
    (d : CdnDomainData) (m : Meta) : Option (Option GoError) × CdnDomainData × Meta :=
  match resourceAlicloudCdnDomainCreate.args c d with
  | .error err => (some (some err), d, m)
  | .ok args =>
    let m := m.call (Call.AddCdnDomain args)
    match m.AddCdnDomain args with
    | some err => (some (some (.errorf ("AddCdnDomain got an error: " ++ err.goSyntax))), d, m)
    | none =>
      let d : CdnDomainData := { d with id := args.DomainName }
      match WaitForDomainStatus c fuel d.id c.Configuring 60 m with
      | (none, m) => (none, d, m)
      | (some (some _), m) => (some (some (.errorf "Timeout when Cdn Domain Available")), d, m)
      | (some none, m) =>
        let m := m.call (Call.resourceAlicloudCdnDomainUpdate d.id)
        (some (update d).1, (update d).2, m)

/-- The attribute `sources` is unset or empty. -/
def CdnDomainData.sourcesMissing (d : CdnDomainData) : Prop :=
  d.sources = none ∨ d.sources = some []

/-- The attribute `source_type` is unset or empty. -/
def CdnDomainData.sourceTypeMissing (d : CdnDomainData) : Prop :=
  d.source_type = none ∨ d.source_type = some ""

instance (d : CdnDomainData) : Decidable d.sourcesMissing :=
  inferInstanceAs (Decidable (_ ∨ _))

instance (d : CdnDomainData) : Decidable d.sourceTypeMissing :=
  inferInstanceAs (Decidable (_ ∨ _))

/-! ## `page404ConfigUpdate` and `authConfigUpdate` -/

/-- The decimal digit `d < 10` as a character. -/
def digitChar (d : Nat) : Char := Char.ofNat (48 + d)

/-- The decimal digits of `n`, most significant first, put in front of `acc`; `fuel`
bounds the number of digits. -/
def formatBits : Nat → Nat → List Char → List Char
  | 0, _, acc => acc
  | fuel + 1, n, acc =>
    if n < 10 then digitChar n :: acc
    else formatBits fuel (n / 10) (digitChar (n % 10) :: acc)

/-- The function `strconv.Itoa`: the decimal rendering of an integer, with a leading `-`
for a negative one. -/
def Itoa (i : Int) : String :=
  if i < 0 then String.mk ('-' :: formatBits (i.natAbs + 1) i.natAbs [])
  else String.mk (formatBits (i.natAbs + 1) i.natAbs [])

/-- One element of the set `page_404_config`, as the map `val`: `page_type` has a schema
default and is always there, the key `custom_page_url` may be absent. -/
structure Page404Config where
  page_type : String
  custom_page_url : Option String := none
  deriving DecidableEq, Repr

/-- The call `client.WithCdnClient(... cdnClient.SetErrorPageConfig(args))` followed by
`if err != nil { return err }; return nil`. -/
def callSetErrorPageConfig (args : ErrorPageConfigRequest) (m : Meta) : Option GoError × Meta :=
  let m := m.call (Call.SetErrorPageConfig args)
  match m.SetErrorPageConfig args with
  | some err => (some (.sdk err), m)
  | none => (none, m)

/-- The function `page404ConfigUpdate(client, d)`, given the resource ID `d.Id()` and the
elements of `d.Get("page_404_config")` in the order of `Set.List()`.  The bookkeeping
call `d.SetPartial` has no part in the result and is left out. -/
def page404ConfigUpdate (c : Common) (id : String) (valSet : List Page404Config)
    (m : Meta) : Option GoError × Meta :=
  let args : ErrorPageConfigRequest := { DomainName := id }
  match valSet with
  | [] => callSetErrorPageConfig { args with PageType := "default" } m
  | val :: _ =>
    let args : ErrorPageConfigRequest := { args with PageType := val.page_type }
    let ok : Bool := val.custom_page_url.isSome
    let customPageUrl : String := val.custom_page_url.getD ""
    let args : ErrorPageConfigRequest :=
      if ok then { args with CustomPageUrl := customPageUrl } else args
    if args.PageType = "charity" ∧ (ok = true ∧ customPageUrl ≠ c.CharityPageUrl ∨ ok = false) then
      (some (.errorf ("If 'page_type' value is 'charity', you must set 'custom_page_url' with '"
        ++ c.CharityPageUrl ++ "'.")), m)
    else if args.PageType = "default" ∧ ok = true ∧ customPageUrl ≠ "" then
      (some (.errorf "If 'page_type' value is 'default', you can not set 'custom_page_url'."), m)
    else if args.PageType = "other" ∧ (ok = false ∨ customPageUrl = "") then
      (some (.errorf
        "If 'page_type' value is 'other', you must set the value of 'custom_page_url'."), m)
    else callSetErrorPageConfig args m

/-- One element of the set `auth_config`, as the map `val`: `auth_type` and `timeout` have
schema defaults and are always there, the keys `master_key` and `slave_key` may be
absent. -/
structure AuthConfig where
  auth_type : String
  timeout : Int
  master_key : Option String := none
  slave_key : Option String := none
  deriving DecidableEq, Repr

/-- The call `client.WithCdnClient(... cdnClient.SetReqAuthConfig(args))` followed by
`if err != nil { return err }; return nil`. -/
def callSetReqAuthConfig (args : ReqAuthConfigRequest) (m : Meta) : Option GoError × Meta :=
  let m := m.call (Call.SetReqAuthConfig args)
  match m.SetReqAuthConfig args with
  | some err => (some (.sdk err), m)
  | none => (none, m)

/-- The function `authConfigUpdate(client, d)`, given the resource ID `d.Id()` and the
elements of the old and the new value of `auth_config` (the two results of
`d.GetChange`) in the order of `Set.List()`.  The bookkeeping call `d.SetPartial` has
no part in the result and is left out. -/
def authConfigUpdate (id : String) (oldConfig newConfig : List AuthConfig) (m : Meta) :
    Option GoError × Meta :=
  let args : ReqAuthConfigRequest := { DomainName := id }
  match newConfig with
  | [] => callSetReqAuthConfig { args with AuthType := "no_auth" } m
  | val :: _ =>
    let args : ReqAuthConfigRequest :=
      { args with AuthType := val.auth_type, Timeout := Itoa val.timeout }
    let okMasterKey : Bool := val.master_key.isSome
    let okSlaveKey : Bool := val.slave_key.isSome
    let args : ReqAuthConfigRequest :=
      if okMasterKey then { args with Key1 := val.master_key.getD "" } else args
    let args : ReqAuthConfigRequest :=
      if okSlaveKey then { args with Key2 := val.slave_key.getD "" } else args
    if args.AuthType = "no_auth" then
      match oldConfig with
      | [] =>
        if okMasterKey || okSlaveKey then
          (some (.errorf "If 'auth_type' value is 'no_auth', you can not set the value of 'master_key' and 'slave_key'."), m)
        else callSetReqAuthConfig args m
      | oldVal :: _ =>
        if oldVal.master_key ≠ val.master_key ∨ oldVal.slave_key ≠ val.slave_key then
          (some (.errorf "If 'auth_type' value is 'no_auth', you can not change the value of 'master_key' and 'slave_key'."), m)
        else callSetReqAuthConfig args m
    else
      if !okMasterKey || !okSlaveKey then
        (some (.errorf "If 'auth_type' value is one of ['type_a', 'type_b', 'type_c'], you must set 'master_key' and 'slave_key' at one time."), m)
      else callSetReqAuthConfig args m

/-! ## The log project resource -/

/-- The `schema.ResourceData` of an `alicloud_log_project` resource: the ID and the two
attributes of the schema. -/
structure LogProjectData where
  id : String := ""
  name : String := ""
  description : String := ""
  deriving DecidableEq, Repr

/-- The function literal that `resourceAlicloudLogProjectRead` hands to `invoker.Run`:
one `GetProject` call for `d.Id()` and the reconciliation of the state with its
outcome. -/
def resourceAlicloudLogProjectRead.func1 (c : Common) (d : LogProjectData) (m : Meta) :
    Option GoError × LogProjectData × Meta :=
  let m := m.call (Call.GetProject d.id)
  match m.GetProject d.id with
  | .error err =>
    if c.IsExceptedError (.sdk err) c.ProjectNotExist then
      (none, { d with id := "" }, m)
    else
      (some (.errorf ("GetProject got an error: " ++ (GoError.sdk err).Error ++ ".")), d, m)
  | .ok project =>
    (none, { d with name := project.Name, description := project.Description }, m)

/-- The function `resourceAlicloudLogProjectRead(d, meta)`.  The method `Run` of the
invoker, which is defined in another file of the provider, is the argument `Run`. -/
def resourceAlicloudLogProjectRead (c : Common)
    (Run : (LogProjectData → Meta → Option GoError × LogProjectData × Meta) →
      LogProjectData → Meta → Option GoError × LogProjectData × Meta)
    (d : LogProjectData) (m : Meta) : Option GoError × LogProjectData × Meta :=
  Run (resourceAlicloudLogProjectRead.func1 c) d m

/-- The type `resource.RetryError`: the answer of one attempt under `resource.Retry`,
built by `resource.RetryableError` or by `resource.NonRetryableError`. -/
inductive RetryError where
  | RetryableError (err : GoError)
  | NonRetryableError (err : GoError)
  deriving DecidableEq, Repr

/-- Lines 114-128 of `resourceAlicloudLogProjectDelete`: the `CheckProjectExist` call of
an attempt and its classification. -/
def resourceAlicloudLogProjectDelete.check (c : Common) (d : LogProjectData) (m : Meta) :
    Option RetryError × Meta :=
  let m := m.call (Call.CheckProjectExist d.id)
  match m.CheckProjectExist d.id with
  | .error err =>
    if c.IsExceptedErrors (.sdk err) [c.LogClientTimeout] then
      (some (.RetryableError
        (.errorf ("CheckProjectExist with an error: " ++ (GoError.sdk err).Error))), m)
    else
      (some (.NonRetryableError
        (.errorf ("While deleting log project, checking project existing got an error: "
          ++ (GoError.sdk err).Error ++ "."))), m)
  | .ok exist =>
    if !exist then (none, m)
    else (some (.RetryableError (.errorf ("Deleting log project " ++ d.id ++ " timeout."))), m)

/-- The function literal that `resourceAlicloudLogProjectDelete` hands to
`resource.Retry`: one attempt, made of a `DeleteProject` call and, unless that call
settles the attempt, a `CheckProjectExist` call.  The answer `none` is `nil`. -/
def resourceAlicloudLogProjectDelete.func1 (c : Common) (d : LogProjectData) (m : Meta) :
    Option RetryError × Meta :=
  let m := m.call (Call.DeleteProject d.id)
  match m.DeleteProject d.id with
  | some err =>
    if c.IsExceptedErrors (.sdk err) [c.LogClientTimeout] then
      (some (.RetryableError
        (.errorf ("Timeout. DeleteProject with an error: " ++ (GoError.sdk err).Error))), m)
    else if !c.IsExceptedErrors (.sdk err) [c.ProjectNotExist] then
      (some (.NonRetryableError
        (.errorf ("DeleteProject got an error: " ++ (GoError.sdk err).Error))), m)
    else resourceAlicloudLogProjectDelete.check c d m
  | none => resourceAlicloudLogProjectDelete.check c d m

/-- The function `resourceAlicloudLogProjectDelete(d, meta)`.  The helper
`resource.Retry` of the Terraform SDK, which repeats the attempt for up to three minutes
of real time, is the argument `Retry`. -/
def resourceAlicloudLogProjectDelete (c : Common)
    (Retry : (Meta → Option RetryError × Meta) → Meta → Option GoError × Meta)
    (d : LogProjectData) (m : Meta) : Option GoError × Meta :=
  Retry (resourceAlicloudLogProjectDelete.func1 c d) m

/-- The attempt is retryable: its answer was built by `resource.RetryableError`. -/
def RetryError.retryable : Option RetryError → Bool
  | some (.RetryableError _) => true
  | _ => false

/-- The attempt failed for good: its answer was built by `resource.NonRetryableError`. -/
def RetryError.nonRetryable : Option RetryError → Bool
  | some (.NonRetryableError _) => true
  | _ => false

/-! ## `resourceAlicloudCdnDomainDelete` -/

/-- The function literal that `resourceAlicloudCdnDomainDelete` hands to
`resource.Retry`: one attempt, a `DeleteCdnDomain` call whose request
`cdn.DescribeDomainRequest` carries the resource ID `d.Id()` as `DomainName`. -/
def resourceAlicloudCdnDomainDelete.func1 (c : Common) (id : String) (m : Meta) :
    Option RetryError × Meta :=
  let m := m.call (Call.DeleteCdnDomain id)
  match m.DeleteCdnDomain id with
  | some err =>
    if c.IsExceptedError (.sdk err) c.ServiceBusy then
      (some (.RetryableError
        (.errorf "The specified Domain is configuring, please retry later.")), m)
    else
      (some (.NonRetryableError
        (.errorf ("Error deleting cdn domain " ++ id ++ ": " ++ err.goSyntax ++ "."))), m)
  | none => (none, m)

/-- The function `resourceAlicloudCdnDomainDelete(d, meta)`, given the resource ID
`d.Id()`.  The helper `resource.Retry` of the Terraform SDK, which repeats the attempt
for up to five minutes of real time, is the argument `Retry`. -/
def resourceAlicloudCdnDomainDelete (c : Common)
    (Retry : (Meta → Option RetryError × Meta) → Meta → Option GoError × Meta)
    (id : String) (m : Meta) : Option GoError × Meta :=
  Retry (resourceAlicloudCdnDomainDelete.func1 c id) m

/-! ## `resourceAlicloudLogProjectCreate` and the importer -/

/-- The function literal that `resourceAlicloudLogProjectCreate` hands to `invoker.Run`:
one `CreateProject` call with the configured `name` and `description`; on success the
ID becomes the `Name` of the project returned. -/
def resourceAlicloudLogProjectCreate.func1 (d : LogProjectData) (m : Meta) :
    Option GoError × LogProjectData × Meta :=
  let m := m.call (Call.CreateProject d.name d.description)
  match m.CreateProject d.name d.description with
  | .error err =>
    (some (.errorf ("CreateProject got an error: " ++ (GoError.sdk err).Error ++ ".")), d, m)
  | .ok project => (none, { d with id := project.Name }, m)

/-- The function `resourceAlicloudLogProjectCreate(d, meta)`, with the method `Run` of
the invoker as an argument: an error of the run is returned, otherwise the function
ends in `resourceAlicloudLogProjectRead`. -/
def resourceAlicloudLogProjectCreate (c : Common)
    (Run : (LogProjectData → Meta → Option GoError × LogProjectData × Meta) →
      LogProjectData → Meta → Option GoError × LogProjectData × Meta)
    (d : LogProjectData) (m : Meta) : Option GoError × LogProjectData × Meta :=
  match Run resourceAlicloudLogProjectCreate.func1 d m with
  | (some err, d, m) => (some err, d, m)
  | (none, d, m) => resourceAlicloudLogProjectRead c Run d m

/-- The importer `schema.ImportStatePassthrough` of the Terraform SDK, declared in the
`Importer` field of the resource: it returns the resource data it is given, which
Terraform has made afresh with nothing but the ID to import. -/
def ImportStatePassthrough (d : LogProjectData) : List LogProjectData := [d]

/-- The resource data Terraform hands to the importer for the ID `id`. -/
def importData (id : String) : LogProjectData := { id := id }

/-- An invoker that runs its function once and hands the result on. -/
def runOnce (f : LogProjectData → Meta → Option GoError × LogProjectData × Meta)
    (d : LogProjectData) (m : Meta) : Option GoError × LogProjectData × Meta := f d m

/-! ## Integer fields on the wire: `strconv.Atoi`, `cacheConfigUpdate` and the read side -/

/-- The field `Err` of the `*strconv.NumError` that `strconv.Atoi` returns. -/
inductive NumError where
  | ErrSyntax
  | ErrRange
  deriving DecidableEq, Repr

/-- The test `'0' <= c && c <= '9'`. -/
def isDigit (c : Char) : Bool := decide (48 ≤ c.toNat ∧ c.toNat ≤ 57)

/-- The loop of `strconv.ParseUint(s, 10, 64)` over the bytes of `s`, with `n` the value
read so far.  A byte that is no decimal digit ends it with `ErrSyntax` and `0`.  The
arithmetic is that of `uint64`: when `n` has reached the cutoff `maxUint64/10 + 1`, or
the sum with the next digit wraps around, it ends at once with `ErrRange` and the
largest value, before the rest of the string is looked at. -/
def ParseUint.loop : List Char → Nat → Nat × Option NumError
  | [], n => (n, none)
  | c :: cs, n =>
    if isDigit c = false then (0, some .ErrSyntax)
    else
      let d := c.toNat - 48
      if n ≥ 1844674407370955162 then (18446744073709551615, some .ErrRange)
      else
        let n := n * 10 % 18446744073709551616
        let n1 := (n + d) % 18446744073709551616
        if n1 < n ∨ n1 > 18446744073709551615 then (18446744073709551615, some .ErrRange)
        else ParseUint.loop cs n1

/-- The function `strconv.ParseUint(s, 10, 64)`. -/
def ParseUint (s : List Char) : Nat × Option NumError :=
  if s = [] then (0, some .ErrSyntax) else ParseUint.loop s 0

/-- The conversion of an integer to `int64`, which wraps around. -/
def int64 (x : Int) : Int :=
  (x + 9223372036854775808) % 18446744073709551616 - 9223372036854775808

/-- The function `strconv.ParseInt(s, 10, 0)` where `int` has 64 bits: a leading sign is
picked off, the rest is read by `ParseUint`; a syntax error gives `0`, a value out of
range gives `ErrRange` with the largest or the smallest `int64`. -/
def ParseInt (s : List Char) : Int × Option NumError :=
  match s with
  | [] => (0, some .ErrSyntax)
  | c :: cs =>
    let neg : Bool := decide (c = '-')
    let s1 : List Char := if c = '+' ∨ c = '-' then cs else c :: cs
    match ParseUint s1 with
    | (_, some .ErrSyntax) => (0, some .ErrSyntax)
    | (un, _) =>
      if neg = false ∧ un ≥ 9223372036854775808 then
        (9223372036854775807, some .ErrRange)
      else if neg = true ∧ un > 9223372036854775808 then
        (-9223372036854775808, some .ErrRange)
      else
        let n := int64 un
        (if neg then int64 (-n) else n, none)

/-- The function `strconv.Atoi(s)`, which is `ParseInt(s, 10, 0)` converted to `int`; its
fast path for short strings gives the same results.  The outcome is the value and the
error, `none` for `nil`. -/
def Atoi (s : String) : Int × Option NumError := ParseInt s.data

/-- The request `cdn.CacheConfigRequest`, with the fields the provider fills in. -/
structure CacheConfigRequest where
  DomainName : String := ""
  CacheContent : String := ""
  TTL : String := ""
  Weight : String := ""
  deriving DecidableEq, Repr

/-- One element of the set `cache_config`, as the map `val`. -/
structure CacheConfig where
  cache_content : String := ""
  ttl : Int := 0
  cache_type : String := ""
  weight : Int := 1
  cache_id : String := ""
  deriving DecidableEq, Repr

/-- Lines 786-791 of `cacheConfigUpdate`: the request built for one new element. -/
def cacheConfigUpdate.args (id : String) (val : CacheConfig) : CacheConfigRequest :=
  { DomainName := id,
    CacheContent := val.cache_content,
    TTL := Itoa val.ttl,
    Weight := Itoa val.weight }

/-- The remote record `configs.ReqAuthConfig` that `DescribeDomainConfigs` returns. -/
structure ReqAuthConfig where
  AuthType : String := ""
  Key1 : String := ""
  Key2 : String := ""
  TimeOut : String := ""
  deriving DecidableEq, Repr

/-- One remote record of `configs.CacheExpiredConfigs.CacheExpiredConfig`. -/
structure CacheExpiredConfig where
  ConfigId : String := ""
  CacheType : String := ""
  CacheContent : String := ""
  TTL : String := ""
  Weight : String := ""
  deriving DecidableEq, Repr

/-- Lines 459-466 of `resourceAlicloudCdnDomainRead`: the `auth_config` element made from
the remote record; the error of `strconv.Atoi` is dropped. -/
def resourceAlicloudCdnDomainRead.authConfig (authConfig : ReqAuthConfig) : AuthConfig :=
  let timeout := (Atoi authConfig.TimeOut).1
  { auth_type := authConfig.AuthType,
    master_key := some authConfig.Key1,
    slave_key := some authConfig.Key2,
    timeout := timeout }

/-- Lines 484-492 of `resourceAlicloudCdnDomainRead`: the `cache_config` element made
from one remote record; the errors of `strconv.Atoi` are dropped. -/
def resourceAlicloudCdnDomainRead.cacheConfig (v : CacheExpiredConfig) : CacheConfig :=
  let ttl := (Atoi v.TTL).1
  let weight := (Atoi v.Weight).1
  { cache_type := v.CacheType,
    cache_content := v.CacheContent,
    cache_id := v.ConfigId,
    weight := weight,
    ttl := ttl }

/-- Whether a string is a decimal integer: an optional sign followed by one or more
decimal digits. -/
def isDecimalInteger (s : String) : Bool :=
  match s.data with
  | [] => false
  | c :: cs =>
    if c = '+' ∨ c = '-' then !cs.isEmpty && cs.all isDigit
    else (c :: cs).all isDigit

/-! ## `UpgradeDBInstanceNetWorkInfoWithChan` (vendored RDS client) -/

/-- The request struct `UpgradeDBInstanceNetWorkInfoRequest`, with its query fields. -/
structure UpgradeDBInstanceNetWorkInfoRequest where
  OwnerId : String := ""
  ResourceOwnerAccount : String := ""
  ResourceOwnerId : String := ""
  DBInstanceId : String := ""
  ConnectionString : String := ""
  deriving DecidableEq, Repr

/-- The response struct `UpgradeDBInstanceNetWorkInfoResponse`. -/
structure UpgradeDBInstanceNetWorkInfoResponse where
  RequestId : String := ""
  deriving DecidableEq, Repr

/-- The function `CreateUpgradeDBInstanceNetWorkInfoResponse`: an empty response. -/
def CreateUpgradeDBInstanceNetWorkInfoResponse : UpgradeDBInstanceNetWorkInfoResponse :=
  { RequestId := "" }

/-- What goes wrong with a channel operation: a send on a closed channel and a second
`close` panic, and a send on a full channel with nobody receiving never returns. -/
inductive ChanFault where
  | sendOnClosed
  | closeOfClosed
  | blocked
  deriving DecidableEq, Repr

/-- A buffered Go channel made by `make(chan T, cap)`: the values sent and not yet
received, and whether it has been closed. -/
structure Chan (α : Type) where
  cap : Nat
  buf : List α := []
  closed : Bool := false

/-- The operation `ch <- v`. -/
def Chan.send {α : Type} (ch : Chan α) (v : α) : Except ChanFault (Chan α) :=
  if ch.closed then .error .sendOnClosed
  else if ch.buf.length ≥ ch.cap then .error .blocked
  else .ok { ch with buf := ch.buf ++ [v] }

/-- The operation `close(ch)`. -/
def Chan.close {α : Type} (ch : Chan α) : Except ChanFault (Chan α) :=
  if ch.closed then .error .closeOfClosed
  else .ok { ch with closed := true }

/-- One channel operation of `UpgradeDBInstanceNetWorkInfoWithChan`, for the record of
the operations in the order in which they happen. -/
inductive ChanOp where
  | sendResponse (response : UpgradeDBInstanceNetWorkInfoResponse)
  | sendErr (err : GoError)
  | closeResponseChan
  | closeErrChan
  deriving DecidableEq, Repr

/-- The two channels of `UpgradeDBInstanceNetWorkInfoWithChan` and the record of the
operations done on them. -/
structure Chans where
  responseChan : Chan UpgradeDBInstanceNetWorkInfoResponse
  errChan : Chan GoError
  ops : List ChanOp := []

/-- The statement `responseChan <- response`. -/
def Chans.sendResponse (st : Chans) (response : UpgradeDBInstanceNetWorkInfoResponse) :
    Except ChanFault Chans :=
  match st.responseChan.send response with
  | .error f => .error f
  | .ok ch => .ok { st with responseChan := ch, ops := st.ops ++ [ChanOp.sendResponse response] }

/-- The statement `errChan <- err`. -/
def Chans.sendErr (st : Chans) (err : GoError) : Except ChanFault Chans :=
  match st.errChan.send err with
  | .error f => .error f
  | .ok ch => .ok { st with errChan := ch, ops := st.ops ++ [ChanOp.sendErr err] }

/-- The statement `close(responseChan)`. -/
def Chans.closeResponseChan (st : Chans) : Except ChanFault Chans :=
  match st.responseChan.close with
  | .error f => .error f
  | .ok ch => .ok { st with responseChan := ch, ops := st.ops ++ [ChanOp.closeResponseChan] }

/-- The statement `close(errChan)`. -/
def Chans.closeErrChan (st : Chans) : Except ChanFault Chans :=
  match st.errChan.close with
  | .error f => .error f
  | .ok ch => .ok { st with errChan := ch, ops := st.ops ++ [ChanOp.closeErrChan] }

/-- Modelled from the spec: the method `AddAsyncTask` of the SDK client is not among the
sources; of what it can do, the two outcomes that the specification names are modelled.
Either the task is accepted and run to completion, or it is rejected with an error and
never run. -/
inductive AsyncTaskOutcome where
  | ran
  | rejected (err : GoError)
  deriving DecidableEq, Repr

/-- The RDS client `*Client`: the outcome of `DoAction` for a request, which fills in
the response and may return an error, and the outcome of `AddAsyncTask`. -/
structure Client where
  DoAction : UpgradeDBInstanceNetWorkInfoRequest → UpgradeDBInstanceNetWorkInfoResponse →
    UpgradeDBInstanceNetWorkInfoResponse × Option GoError
  AddAsyncTask : AsyncTaskOutcome

/-- The method `UpgradeDBInstanceNetWorkInfo(request)`: the response made by
`CreateUpgradeDBInstanceNetWorkInfoResponse` is handed to `DoAction`, and both the
response and the error are returned. -/
def Client.UpgradeDBInstanceNetWorkInfo (client : Client)
    (request : UpgradeDBInstanceNetWorkInfoRequest) :
    UpgradeDBInstanceNetWorkInfoResponse × Option GoError :=
  let response := CreateUpgradeDBInstanceNetWorkInfoResponse
  client.DoAction request response

/-- The function literal that `UpgradeDBInstanceNetWorkInfoWithChan` hands to
`AddAsyncTask`: the synchronous call, one send, and then the two deferred calls, which
run last one first: `close(errChan)`, then `close(responseChan)`. -/
def Client.UpgradeDBInstanceNetWorkInfoWithChan.func1 (client : Client)
    (request : UpgradeDBInstanceNetWorkInfoRequest) (st : Chans) : Except ChanFault Chans :=
  let sent : Except ChanFault Chans :=
    match client.UpgradeDBInstanceNetWorkInfo request with
    | (_, some err) => st.sendErr err
    | (response, none) => st.sendResponse response
  match sent with
  | .error f => .error f
  | .ok st =>
    match st.closeErrChan with
    | .error f => .error f
    | .ok st => st.closeResponseChan

/-- The method `UpgradeDBInstanceNetWorkInfoWithChan(request)`: the state of the two
channels it returns once the task, if accepted, has run.  The task is the only writer
of the channels when it is accepted, so that its run is placed at the call of
`AddAsyncTask`. -/
def Client.UpgradeDBInstanceNetWorkInfoWithChan (client : Client)
    (request : UpgradeDBInstanceNetWorkInfoRequest) : Except ChanFault Chans :=
  let st : Chans := { responseChan := { cap := 1 }, errChan := { cap := 1 } }
  match client.AddAsyncTask with
  | .ran => Client.UpgradeDBInstanceNetWorkInfoWithChan.func1 client request st
  | .rejected err =>
    match st.sendErr err with
    | .error f => .error f
    | .ok st =>
      match st.closeResponseChan with
      | .error f => .error f
      | .ok st => st.closeErrChan

/-! ## The invoker and the retry helper -/

/-- The function `strings.Contains(s, substr)`. -/
def stringsContains (s substr : String) : Bool :=
  s.data.tails.any (fun t => substr.data.isPrefixOf t)

/-- Modelled from the spec: the method `Run` of the provider's `Invoker`, which is
declared in another file and is not among the sources.  The specification speaks of
retry-wrapped calls, and the source installs catchers before it calls `Run`.  The
function is run; a result `nil`, or an error that no catcher catches, is handed on;
after an error that a catcher catches the function is run again while retries are
left, and when none is left the error is reported as a retry timeout.  The test
`caught` stands for the catchers and the number for their retry count. -/
def Invoker.Run (caught : GoError → Bool) :
    Nat → (LogProjectData → Meta → Option GoError × LogProjectData × Meta) →
      LogProjectData → Meta → Option GoError × LogProjectData × Meta
  | 0, f, d, m =>
    match f d m with
    | (none, d, m) => (none, d, m)
    | (some err, d, m) =>
      if caught err then
        (some (.errorf ("Retry timeout and got an error: " ++ err.Error ++ ".")), d, m)
      else (some err, d, m)
  | retries + 1, f, d, m =>
    match f d m with
    | (none, d, m) => (none, d, m)
    | (some err, d, m) =>
      if caught err then Invoker.Run caught retries f d m
      else (some err, d, m)

/-- A stand-in for the helper `resource.Retry` of the Terraform SDK, with a number of
attempts in place of the time limit: the attempt is made up to `n + 1` times; `nil` and
the error of a non-retryable answer end it at once, and after the last attempt the
error of a retryable answer is returned. -/
def retryAttempts : Nat → (Meta → Option RetryError × Meta) → Meta → Option GoError × Meta
  | 0, f, m =>
    match f m with
    | (none, m) => (none, m)
    | (some (.RetryableError err), m) => (some err, m)
    | (some (.NonRetryableError err), m) => (some err, m)
  | n + 1, f, m =>
    match f m with
    | (none, m) => (none, m)
    | (some (.RetryableError _), m) => retryAttempts n f m
    | (some (.NonRetryableError err), m) => (some err, m)

/-! ## A sample environment -/

/-- A sample instance of `Common`, on which the definitions can be evaluated. -/
def sampleCommon : Common where
  DefaultTimeout := 120
  DefaultIntervalShort := 5
  Configuring := "configuring"
  LiveStream := "liveStream"
  CharityPageUrl := "http://promotion.alicdn.com/help/oss/error.html"
  ProjectNotExist := "ProjectNotExist"
  LogClientTimeout := "Client.Timeout exceeded while awaiting headers"
  ServiceBusy := "ServiceBusy"
  GetTimeoutMessage := fun product status =>
    "Waitting for " ++ product ++ " " ++ status ++ " is timeout"
  GetTimeErrorFromString := fun str => GoError.errorf str
  IsExceptedError := fun err code =>
    match err with
    | .sdk e => e.code == code
    | .errorf _ => false
  IsExceptedErrors := fun err codes =>
    match err with
    | .sdk e => codes.contains e.code
    | .errorf _ => false
  expandStringList := fun xs => xs

/-- A sample handle: `AddCdnDomain` and the setters succeed, and the domain reports the
status `checking` on the first two polls and `configuring` from the third on. -/
def sampleMeta : Meta where
  AddCdnDomain := fun _ => none
  DescribeCdnDomainDetail := fun n =>
    .ok { GetDomainDetailModel :=
      { DomainStatus := if n < 2 then "checking" else "configuring" } }
  SetErrorPageConfig := fun _ => none
  SetReqAuthConfig := fun _ => none
  GetProject := fun name => .ok { Name := name, Description := "sample project" }
  DeleteProject := fun _ => none
  CheckProjectExist := fun _ => .ok false
  CreateProject := fun name description => .ok { Name := name, Description := description }
  DeleteCdnDomain := fun _ => none

/-- A sample `update` step that succeeds and leaves the resource data as they are. -/
def sampleUpdate (d : CdnDomainData) : Option GoError × CdnDomainData := (none, d)

/-- A sample configuration of a live-streaming domain that also sets `sources` and
`source_type`. -/
def sampleLiveDomain : CdnDomainData where
  domain_name := "live.example.com"
  cdn_type := "liveStream"
  source_type := some "ipaddr"
  sources := some ["1.1.1.1"]

/-- A sample configuration of a web domain. -/
def sampleWebDomain : CdnDomainData where
  domain_name := "www.example.com"
  cdn_type := "web"
  source_type := some "ipaddr"
  sources := some ["1.1.1.1", "2.2.2.2"]

/-- The request `resourceAlicloudCdnDomainCreate` builds for `sampleWebDomain`. -/
def sampleWebRequest : AddDomainRequest where
  DomainName := "www.example.com"
  CdnType := "web"
  SourceType := "ipaddr"
  SourcePort := 80
  Sources := "1.1.1.1,2.2.2.2"

/-- A sample handle on which every `DescribeCdnDomainDetail` call fails. -/
def failingMeta : Meta where
  AddCdnDomain := fun _ => none
  DescribeCdnDomainDetail := fun _ =>
    .error { code := "InternalError", text := "internal error",
             goSyntax := "common.Error(InternalError)" }
  SetErrorPageConfig := fun _ => none
  SetReqAuthConfig := fun _ => none
  GetProject := fun name => .ok { Name := name, Description := "sample project" }
  DeleteProject := fun _ => none
  CheckProjectExist := fun _ => .ok false
  CreateProject := fun name description => .ok { Name := name, Description := description }
  DeleteCdnDomain := fun _ => none

/-- A sample `auth_config` element that switches authentication off. -/
def sampleNoAuth : AuthConfig where
  auth_type := "no_auth"
  timeout := 1800

/-- A sample `auth_config` element with a signed `auth_type` and both keys. -/
def sampleTypeA : AuthConfig where
  auth_type := "type_a"
  timeout := 1800
  master_key := some "masterkey1234567"
  slave_key := some "slavekey12345678"

/-- A sample catcher test in the manner of `SlsClientTimeoutCatcher`: the text of the
error contains `LogClientTimeout`. -/
def sampleCaught (err : GoError) : Bool :=
  stringsContains err.Error sampleCommon.LogClientTimeout

/-- A sample SDK error of a request that timed out. -/
def sampleTimeoutError : SdkError where
  code := "RequestError"
  text := "net/http: request canceled (Client.Timeout exceeded while awaiting headers)"
  goSyntax := "sls.Error(RequestError)"

/-- A sample SDK error of a request that was refused. -/
def sampleDeniedError : SdkError where
  code := "Unauthorized"
  text := "denied"
  goSyntax := "sls.Error(Unauthorized)"

/-- A sample handle on which every `GetProject` call times out. -/
def timeoutMeta : Meta :=
  { sampleMeta with GetProject := fun _ => .error sampleTimeoutError }

/-- A sample handle on which every `GetProject` call is refused. -/
def deniedMeta : Meta :=
  { sampleMeta with GetProject := fun _ => .error sampleDeniedError }

/-! ## Theorems -/

theorem ceilDiv_bounds (T k : Int) (hT : 0 < T) (hk : 0 < k) :
    ∃ n : Nat, ceilDiv T k = n + 1 ∧ (n : Int) * k < T ∧ T ≤ ((n : Int) + 1) * k := by
  have h1 := Int.emod_add_ediv (T + k - 1) k
  have h2 := Int.emod_lt_of_pos (T + k - 1) hk
  have h3 := Int.emod_nonneg (T + k - 1) (ne_of_gt hk)
  have hq : 0 < (T + k - 1) / k := by
    by_contra hcon
    have hle : (T + k - 1) / k ≤ 0 := not_lt.mp hcon
    have : k * ((T + k - 1) / k) ≤ 0 := by nlinarith
    omega
  obtain ⟨q, hqe⟩ : ∃ q : Nat, (T + k - 1) / k = (q : Int) + 1 :=
    ⟨((T + k - 1) / k - 1).toNat, by omega⟩
  refine ⟨q, ?_, ?_, ?_⟩
  · unfold ceilDiv; omega
  · rw [hqe] at h1; nlinarith
  · rw [hqe] at h1; nlinarith

theorem describes_pollTrace (Id : String) (k : Int) (i : Nat) :
    describes (pollTrace Id k i) = i + 1 := by
  induction i with
  | zero => simp [pollTrace, describes, Call.isDescribe]
  | succ i ih =>
    simp only [describes] at ih
    simp [pollTrace, describes, Call.isDescribe, ih]

theorem sleeps_pollTrace (Id : String) (k : Int) (i : Nat) :
    sleeps (pollTrace Id k i) = i := by
  induction i with
  | zero => simp [pollTrace, sleeps, Call.isSleep]
  | succ i ih =>
    simp only [sleeps] at ih
    simp [pollTrace, sleeps, Call.isSleep, ih]

theorem WaitForDomainStatus.loop_error (c : Common) (Id status : String) (fuel : Nat)
    (timeout : Int) (m : Meta) (e : SdkError)
    (hs : m.DescribeCdnDomainDetail m.described = .error e) :
    WaitForDomainStatus.loop c Id status (fuel + 1) timeout m
      = (some (some (describeError e)), m.afterDescribe Id) := by
  simp [WaitForDomainStatus.loop, DescribeDomainDetail, hs, describeError]

theorem WaitForDomainStatus.loop_hit (c : Common) (Id status : String) (fuel : Nat)
    (timeout : Int) (m : Meta) (resp : DomainResponse)
    (hs : m.DescribeCdnDomainDetail m.described = .ok resp)
    (hst : resp.GetDomainDetailModel.DomainStatus = status) :
    WaitForDomainStatus.loop c Id status (fuel + 1) timeout m
      = (some none, m.afterDescribe Id) := by
  simp [WaitForDomainStatus.loop, DescribeDomainDetail, hs, hst]

theorem WaitForDomainStatus.loop_timeout (c : Common) (Id status : String) (fuel : Nat)
    (timeout : Int) (m : Meta) (resp : DomainResponse)
    (hs : m.DescribeCdnDomainDetail m.described = .ok resp)
    (hst : resp.GetDomainDetailModel.DomainStatus ≠ status)
    (ht : timeout - c.DefaultIntervalShort ≤ 0) :
    WaitForDomainStatus.loop c Id status (fuel + 1) timeout m
      = (some (some (waitTimeoutError c status)), m.afterDescribe Id) := by
  simp [WaitForDomainStatus.loop, DescribeDomainDetail, hs, hst, ht, waitTimeoutError]

theorem WaitForDomainStatus.loop_continue (c : Common) (Id status : String) (fuel : Nat)
    (timeout : Int) (m : Meta) (resp : DomainResponse)
    (hs : m.DescribeCdnDomainDetail m.described = .ok resp)
    (hst : resp.GetDomainDetailModel.DomainStatus ≠ status)
    (ht : ¬ timeout - c.DefaultIntervalShort ≤ 0) :
    WaitForDomainStatus.loop c Id status (fuel + 1) timeout m
      = WaitForDomainStatus.loop c Id status fuel (timeout - c.DefaultIntervalShort)
          ((m.afterDescribe Id).Sleep c.DefaultIntervalShort) := by
  simp only [WaitForDomainStatus.loop, DescribeDomainDetail, hs]
  rw [if_neg hst, if_neg ht]

/-- The loop of `WaitForDomainStatus`, started with a timeout of which exactly `n + 1`
intervals fit, stops at some poll `i ≤ n`: every earlier poll missed the status, and
poll `i` hit it, failed, or was the last one allowed. -/
theorem WaitForDomainStatus.loop_spec (c : Common) (Id status : String)
    (hk : 0 < c.DefaultIntervalShort) :
    ∀ (n fuel : Nat) (timeout : Int) (m : Meta),
      (n : Int) * c.DefaultIntervalShort < timeout →
      timeout ≤ ((n : Int) + 1) * c.DefaultIntervalShort →
      n + 1 ≤ fuel →
      ∃ (i : Nat) (r : Option GoError) (m1 : Meta), i ≤ n ∧
        WaitForDomainStatus.loop c Id status fuel timeout m = (some r, m1) ∧
        m1.log = m.log ++ pollTrace Id c.DefaultIntervalShort i ∧
        m1.described = m.described + i + 1 ∧
        m1.DescribeCdnDomainDetail = m.DescribeCdnDomainDetail ∧
        m1.AddCdnDomain = m.AddCdnDomain ∧
        (∀ j, j < i → pollMisses m status (m.described + j) = true) ∧
        ((pollHits m status (m.described + i) = true ∧ r = none) ∨
         (∃ e, pollFails m (m.described + i) e ∧ r = some (describeError e)) ∨
         (i = n ∧ pollMisses m status (m.described + i) = true ∧
           r = some (waitTimeoutError c status))) := by
  intro n
  induction n with
  | zero =>
    intro fuel timeout m h1 h2 hf
    obtain ⟨fuel, rfl⟩ : ∃ f, fuel = f + 1 := ⟨fuel - 1, by omega⟩
    cases hs : m.DescribeCdnDomainDetail m.described with
    | error e =>
      exact ⟨0, _, _, le_refl _, WaitForDomainStatus.loop_error c Id status fuel timeout m e hs,
        rfl, rfl, rfl, rfl, by intro j hj; omega,
        Or.inr (Or.inl ⟨e, by simpa [pollFails] using hs, rfl⟩)⟩
    | ok resp =>
      by_cases hst : resp.GetDomainDetailModel.DomainStatus = status
      · exact ⟨0, _, _, le_refl _,
          WaitForDomainStatus.loop_hit c Id status fuel timeout m resp hs hst,
          rfl, rfl, rfl, rfl, by intro j hj; omega,
          Or.inl ⟨by simp [pollHits, hs, hst], rfl⟩⟩
      · have ht : timeout - c.DefaultIntervalShort ≤ 0 := by
          simp only [Nat.cast_zero, zero_add, one_mul] at h2; omega
        exact ⟨0, _, _, le_refl _,
          WaitForDomainStatus.loop_timeout c Id status fuel timeout m resp hs hst ht,
          rfl, rfl, rfl, rfl, by intro j hj; omega,
          Or.inr (Or.inr ⟨rfl, by simp [pollMisses, hs, hst], rfl⟩)⟩
  | succ n ih =>
    intro fuel timeout m h1 h2 hf
    obtain ⟨fuel, rfl⟩ : ∃ f, fuel = f + 1 := ⟨fuel - 1, by omega⟩
    cases hs : m.DescribeCdnDomainDetail m.described with
    | error e =>
      exact ⟨0, _, _, Nat.zero_le _,
        WaitForDomainStatus.loop_error c Id status fuel timeout m e hs,
        rfl, rfl, rfl, rfl, by intro j hj; omega,
        Or.inr (Or.inl ⟨e, by simpa [pollFails] using hs, rfl⟩)⟩
    | ok resp =>
      by_cases hst : resp.GetDomainDetailModel.DomainStatus = status
      · exact ⟨0, _, _, Nat.zero_le _,
          WaitForDomainStatus.loop_hit c Id status fuel timeout m resp hs hst,
          rfl, rfl, rfl, rfl, by intro j hj; omega,
          Or.inl ⟨by simp [pollHits, hs, hst], rfl⟩⟩
      · have hpos : 0 ≤ (n : Int) * c.DefaultIntervalShort :=
          mul_nonneg (Int.ofNat_nonneg n) (le_of_lt hk)
        have e1 : ((n + 1 : Nat) : Int) * c.DefaultIntervalShort
            = (n : Int) * c.DefaultIntervalShort + c.DefaultIntervalShort := by
          push_cast; ring
        have e2 : (((n + 1 : Nat) : Int) + 1) * c.DefaultIntervalShort
            = ((n : Int) + 1) * c.DefaultIntervalShort + c.DefaultIntervalShort := by
          push_cast; ring
        rw [e1] at h1
        rw [e2] at h2
        have ht : ¬ timeout - c.DefaultIntervalShort ≤ 0 := by omega
        obtain ⟨i, r, m1, hi, hrun, hlog, hdesc, hscript, hadd, hmiss, hcase⟩ :=
          ih fuel (timeout - c.DefaultIntervalShort)
            ((m.afterDescribe Id).Sleep c.DefaultIntervalShort)
            (by omega) (by omega) (by omega)
        have hmiss0 : pollMisses m status (m.described + 0) = true := by
          simp [pollMisses, hs, hst]
        have hidx : ∀ j, m.described + 1 + j = m.described + (j + 1) := by intro j; omega
        refine ⟨i + 1, r, m1, by omega, ?_, ?_, ?_, hscript, hadd, ?_, ?_⟩
        · rw [WaitForDomainStatus.loop_continue c Id status fuel timeout m resp hs hst ht]
          exact hrun
        · rw [hlog]; simp [Meta.Sleep, Meta.afterDescribe, pollTrace]
        · rw [hdesc]; simp only [Meta.Sleep, Meta.afterDescribe]; omega
        · intro j hj
          cases j with
          | zero => exact hmiss0
          | succ j =>
            have := hmiss j (by omega)
            simpa [pollMisses, Meta.Sleep, Meta.afterDescribe, hidx] using this
        · rcases hcase with ⟨hh, hr⟩ | ⟨e, hfail, hr⟩ | ⟨hin, hm, hr⟩
          · exact Or.inl ⟨by simpa [pollHits, Meta.Sleep, Meta.afterDescribe, hidx] using hh, hr⟩
          · exact Or.inr (Or.inl
              ⟨e, by simpa [pollFails, Meta.Sleep, Meta.afterDescribe, hidx] using hfail, hr⟩)
          · exact Or.inr (Or.inr ⟨by omega,
              by simpa [pollMisses, Meta.Sleep, Meta.afterDescribe, hidx] using hm, hr⟩)

theorem effectiveTimeout_eq (c : Common) (t : Int) :
    effectiveTimeout c t = if 0 < t then t else c.DefaultTimeout := by
  unfold effectiveTimeout
  by_cases h : t ≤ 0
  · rw [if_pos h, if_neg (by omega)]
  · rw [if_neg h, if_pos (by omega)]

theorem effectiveTimeout_pos (c : Common) (hT : 0 < c.DefaultTimeout) (t : Int) :
    0 < effectiveTimeout c t := by
  unfold effectiveTimeout
  by_cases h : t ≤ 0
  · rw [if_pos h]; exact hT
  · rw [if_neg h]; omega

theorem pollHits_not_misses (m : Meta) (status : String) (i : Nat)
    (h : pollHits m status i = true) : pollMisses m status i = false := by
  unfold pollHits at h
  unfold pollMisses
  cases hs : m.DescribeCdnDomainDetail i with
  | error e => rfl
  | ok r => rw [hs] at h; simpa using h

theorem pollFails_not_hits (m : Meta) (status : String) (i : Nat) (e : SdkError)
    (h : pollFails m i e) : pollHits m status i = false := by
  unfold pollFails at h
  simp [pollHits, h]

theorem pollFails_not_misses (m : Meta) (status : String) (i : Nat) (e : SdkError)
    (h : pollFails m i e) : pollMisses m status i = false := by
  unfold pollFails at h
  simp [pollMisses, h]

/-- With a positive interval and a positive effective timeout, `WaitForDomainStatus` given
at least `ceil (T / k)` iterations returns: it stops at a poll `i` below that number. -/
theorem WaitForDomainStatus_spec (c : Common) (hk : 0 < c.DefaultIntervalShort)
    (Id status : String) (t : Int) (hT : 0 < effectiveTimeout c t) (m : Meta) (fuel : Nat)
    (hfuel : ceilDiv (effectiveTimeout c t) c.DefaultIntervalShort ≤ fuel) :
    ∃ (n i : Nat) (r : Option GoError) (m1 : Meta),
      ceilDiv (effectiveTimeout c t) c.DefaultIntervalShort = n + 1 ∧ i ≤ n ∧
      WaitForDomainStatus c fuel Id status t m = (some r, m1) ∧
      m1.log = m.log ++ pollTrace Id c.DefaultIntervalShort i ∧
      m1.described = m.described + i + 1 ∧
      m1.DescribeCdnDomainDetail = m.DescribeCdnDomainDetail ∧
      m1.AddCdnDomain = m.AddCdnDomain ∧
      (∀ j, j < i → pollMisses m status (m.described + j) = true) ∧
      ((pollHits m status (m.described + i) = true ∧ r = none) ∨
       (∃ e, pollFails m (m.described + i) e ∧ r = some (describeError e)) ∨
       (i = n ∧ pollMisses m status (m.described + i) = true ∧
         r = some (waitTimeoutError c status))) := by
  obtain ⟨n, hn, h1, h2⟩ :=
    ceilDiv_bounds (effectiveTimeout c t) c.DefaultIntervalShort hT hk
  obtain ⟨i, r, m1, hi, hrun, hrest⟩ :=
    WaitForDomainStatus.loop_spec c Id status hk n fuel (effectiveTimeout c t) m h1 h2
      (by omega)
  exact ⟨n, i, r, m1, hn, hi, hrun, hrest⟩

/-- C1: `WaitForDomainStatus` is bounded.  Assuming `DefaultIntervalShort = k > 0` and
`DefaultTimeout > 0`, for every id, target status, timeout `t` and every script of
`DescribeDomainDetail` outcomes, the loop returns within `ceil (T / k)` iterations,
having made at most `ceil (T / k)` describe calls and at most `ceil (T / k) - 1` sleeps,
where `T = t` if `t > 0` and `T = DefaultTimeout` otherwise. -/
theorem WaitForDomainStatus_bounded (c : Common) (hk : 0 < c.DefaultIntervalShort)
    (hT : 0 < c.DefaultTimeout) (Id status : String) (t : Int) (m : Meta) (fuel : Nat)
    (hfuel : ceilDiv (if 0 < t then t else c.DefaultTimeout) c.DefaultIntervalShort ≤ fuel) :
    ∃ (r : Option GoError) (m1 : Meta) (tr : List Call),
      WaitForDomainStatus c fuel Id status t m = (some r, m1) ∧
      m1.log = m.log ++ tr ∧
      describes tr ≤ ceilDiv (if 0 < t then t else c.DefaultTimeout) c.DefaultIntervalShort ∧
      sleeps tr ≤
        ceilDiv (if 0 < t then t else c.DefaultTimeout) c.DefaultIntervalShort - 1 := by
  rw [← effectiveTimeout_eq] at hfuel ⊢
  obtain ⟨n, i, r, m1, hn, hi, hrun, hlog, -⟩ :=
    WaitForDomainStatus_spec c hk Id status t (effectiveTimeout_pos c hT t) m fuel hfuel
  refine ⟨r, m1, pollTrace Id c.DefaultIntervalShort i, hrun, hlog, ?_, ?_⟩
  · rw [describes_pollTrace, hn]; omega
  · rw [sleeps_pollTrace, hn]; omega

theorem stop_unique (m : Meta) (status : String) (d n i0 i : Nat) (hi : i < n + 1)
    (hm0 : ∀ j, j < i0 → pollMisses m status (d + j) = true)
    (hm : ∀ j, j < i → pollMisses m status (d + j) = true)
    (hnm : pollMisses m status (d + i) = false)
    (hcase : pollMisses m status (d + i0) = false ∨ i0 = n) : i = i0 := by
  rcases lt_trichotomy i i0 with h | h | h
  · have := hm0 i h
    rw [hnm] at this
    exact absurd this (by decide)
  · exact h
  · rcases hcase with hc | hc
    · have := hm i0 h
      rw [hc] at this
      exact absurd this (by decide)
    · omega

/-- C2: the result of `WaitForDomainStatus`.  With `N = ceil (T / k)` polls allowed (see
C1), it returns `nil` if and only if the first of these polls that fails or reports the
target status is one that reports the target status; if a poll fails first, the error of
that `DescribeDomainDetail` call is returned as it is; if all `N` polls succeed with
another status, the error `GetTimeErrorFromString(GetTimeoutMessage("Domain", status))`
is returned; and when the first poll reports the target status, the result is `nil`
after exactly one describe call and no sleep. -/
theorem WaitForDomainStatus_result (c : Common) (hk : 0 < c.DefaultIntervalShort)
    (hT : 0 < c.DefaultTimeout) (Id status : String) (t : Int) (m : Meta) (fuel : Nat)
    (hfuel : ceilDiv (if 0 < t then t else c.DefaultTimeout) c.DefaultIntervalShort ≤ fuel) :
    ∃ (r : Option GoError) (m1 : Meta),
      WaitForDomainStatus c fuel Id status t m = (some r, m1) ∧
      (r = none ↔
        ∃ i, i < ceilDiv (if 0 < t then t else c.DefaultTimeout) c.DefaultIntervalShort ∧
          pollHits m status (m.described + i) = true ∧
          ∀ j, j < i → pollMisses m status (m.described + j) = true) ∧
      (∀ i e, i < ceilDiv (if 0 < t then t else c.DefaultTimeout) c.DefaultIntervalShort →
          pollFails m (m.described + i) e →
          (∀ j, j < i → pollMisses m status (m.described + j) = true) →
          r = some (GoError.errorf ("DescribeCdnDomainDetail got an error: " ++ e.goSyntax))) ∧
      ((∀ i, i < ceilDiv (if 0 < t then t else c.DefaultTimeout) c.DefaultIntervalShort →
          pollMisses m status (m.described + i) = true) →
          r = some (c.GetTimeErrorFromString (c.GetTimeoutMessage "Domain" status))) ∧
      (pollHits m status m.described = true →
          r = none ∧ m1.log = m.log ++ [Call.DescribeCdnDomainDetail Id] ∧
          describes [Call.DescribeCdnDomainDetail Id] = 1 ∧
          sleeps [Call.DescribeCdnDomainDetail Id] = 0) := by
  rw [← effectiveTimeout_eq] at hfuel ⊢
  obtain ⟨n, i0, r, m1, hn, hi0, hrun, hlog, -, -, -, hmiss, hcase⟩ :=
    WaitForDomainStatus_spec c hk Id status t (effectiveTimeout_pos c hT t) m fuel hfuel
  rw [hn]
  have hcase0 : pollMisses m status (m.described + i0) = false ∨ i0 = n := by
    rcases hcase with ⟨hh, -⟩ | ⟨e, hf, -⟩ | ⟨hin, -, -⟩
    · exact Or.inl (pollHits_not_misses m status _ hh)
    · exact Or.inl (pollFails_not_misses m status _ e hf)
    · exact Or.inr hin
  have hitcase : ∀ i, i < n + 1 → pollHits m status (m.described + i) = true →
      (∀ j, j < i → pollMisses m status (m.described + j) = true) → i = i0 ∧ r = none := by
    intro i hi hh hm
    have hii : i = i0 :=
      stop_unique m status m.described n i0 i hi hmiss hm
        (pollHits_not_misses m status _ hh) hcase0
    subst hii
    refine ⟨rfl, ?_⟩
    rcases hcase with ⟨-, hr⟩ | ⟨e, hf, -⟩ | ⟨-, hmi, -⟩
    · exact hr
    · rw [pollFails_not_hits m status _ e hf] at hh
      exact absurd hh (by decide)
    · rw [pollHits_not_misses m status _ hh] at hmi
      exact absurd hmi (by decide)
  refine ⟨r, m1, hrun, ⟨?_, ?_⟩, ?_, ?_, ?_⟩
  · intro hr
    rcases hcase with ⟨hh, -⟩ | ⟨e, -, hre⟩ | ⟨-, -, hre⟩
    · exact ⟨i0, by omega, hh, hmiss⟩
    · rw [hr] at hre; exact absurd hre (by simp)
    · rw [hr] at hre; exact absurd hre (by simp)
  · rintro ⟨i, hi, hh, hm⟩
    exact (hitcase i hi hh hm).2
  · intro i e hi hf hm
    have hii : i = i0 :=
      stop_unique m status m.described n i0 i hi hmiss hm
        (pollFails_not_misses m status _ e hf) hcase0
    subst hii
    rcases hcase with ⟨hh, -⟩ | ⟨e1, hf1, hr⟩ | ⟨-, hmi, -⟩
    · rw [pollFails_not_hits m status _ e hf] at hh
      exact absurd hh (by decide)
    · unfold pollFails at hf hf1
      rw [hf] at hf1
      cases hf1
      exact hr
    · rw [pollFails_not_misses m status _ e hf] at hmi
      exact absurd hmi (by decide)
  · intro hall
    have hm0 := hall i0 (by omega)
    rcases hcase with ⟨hh, -⟩ | ⟨e, hf, -⟩ | ⟨-, -, hr⟩
    · rw [pollHits_not_misses m status _ hh] at hm0
      exact absurd hm0 (by decide)
    · rw [pollFails_not_misses m status _ e hf] at hm0
      exact absurd hm0 (by decide)
    · exact hr
  · intro hh
    obtain ⟨hi, hr⟩ := hitcase 0 (by omega) (by simpa using hh) (by intro j hj; omega)
    subst hi
    refine ⟨hr, by simpa [pollTrace] using hlog, ?_, ?_⟩
    · simp [describes, Call.isDescribe]
    · simp [sleeps, Call.isSleep]

/-- Witness for C2: the sample environment, where the third poll reports the status. -/
theorem WaitForDomainStatus_result_witness :
    ∃ (r : Option GoError) (m1 : Meta),
      WaitForDomainStatus sampleCommon 12 "www.example.com" "configuring" 60 sampleMeta = (some r, m1) ∧
      (r = none ↔
        ∃ i, i < ceilDiv (if (0 : Int) < 60 then 60 else sampleCommon.DefaultTimeout) sampleCommon.DefaultIntervalShort ∧
          pollHits sampleMeta "configuring" (sampleMeta.described + i) = true ∧
          ∀ j, j < i → pollMisses sampleMeta "configuring" (sampleMeta.described + j) = true) ∧
      (∀ i e, i < ceilDiv (if (0 : Int) < 60 then 60 else sampleCommon.DefaultTimeout) sampleCommon.DefaultIntervalShort →
          pollFails sampleMeta (sampleMeta.described + i) e →
          (∀ j, j < i → pollMisses sampleMeta "configuring" (sampleMeta.described + j) = true) →
          r = some (GoError.errorf ("DescribeCdnDomainDetail got an error: " ++ e.goSyntax))) ∧
      ((∀ i, i < ceilDiv (if (0 : Int) < 60 then 60 else sampleCommon.DefaultTimeout) sampleCommon.DefaultIntervalShort →
          pollMisses sampleMeta "configuring" (sampleMeta.described + i) = true) →
          r = some (sampleCommon.GetTimeErrorFromString (sampleCommon.GetTimeoutMessage "Domain" "configuring"))) ∧
      (pollHits sampleMeta "configuring" sampleMeta.described = true →
          r = none ∧ m1.log = sampleMeta.log ++ [Call.DescribeCdnDomainDetail "www.example.com"] ∧
          describes [Call.DescribeCdnDomainDetail "www.example.com"] = 1 ∧
          sleeps [Call.DescribeCdnDomainDetail "www.example.com"] = 0) :=
  WaitForDomainStatus_result sampleCommon (by decide) (by decide)
    "www.example.com" "configuring" 60 sampleMeta 12 (by decide)

/-- Witness for C1: the sample environment, a timeout of 60 seconds and 12 iterations. -/
theorem WaitForDomainStatus_bounded_witness :
    ∃ (r : Option GoError) (m1 : Meta) (tr : List Call),
      WaitForDomainStatus sampleCommon 12 "a.example.com" "configuring" 60 sampleMeta
        = (some r, m1) ∧
      m1.log = sampleMeta.log ++ tr ∧
      describes tr ≤
        ceilDiv (if (0 : Int) < 60 then 60 else sampleCommon.DefaultTimeout)
          sampleCommon.DefaultIntervalShort ∧
      sleeps tr ≤
        ceilDiv (if (0 : Int) < 60 then 60 else sampleCommon.DefaultTimeout)
          sampleCommon.DefaultIntervalShort - 1 :=
  WaitForDomainStatus_bounded sampleCommon (by decide) (by decide)
    "a.example.com" "configuring" 60 sampleMeta 12 (by decide)

/-! ### `resourceAlicloudCdnDomainCreate` -/

theorem WaitForDomainStatus.loop_log (c : Common) (Id status : String) :
    ∀ (fuel : Nat) (timeout : Int) (m : Meta),
      ∃ tl, (WaitForDomainStatus.loop c Id status fuel timeout m).2.log = m.log ++ tl := by
  intro fuel
  induction fuel with
  | zero => intro timeout m; exact ⟨[], by simp [WaitForDomainStatus.loop]⟩
  | succ fuel ih =>
    intro timeout m
    cases hs : m.DescribeCdnDomainDetail m.described with
    | error e =>
      rw [WaitForDomainStatus.loop_error c Id status fuel timeout m e hs]
      exact ⟨_, rfl⟩
    | ok resp =>
      by_cases hst : resp.GetDomainDetailModel.DomainStatus = status
      · rw [WaitForDomainStatus.loop_hit c Id status fuel timeout m resp hs hst]
        exact ⟨_, rfl⟩
      · by_cases ht : timeout - c.DefaultIntervalShort ≤ 0
        · rw [WaitForDomainStatus.loop_timeout c Id status fuel timeout m resp hs hst ht]
          exact ⟨_, rfl⟩
        · rw [WaitForDomainStatus.loop_continue c Id status fuel timeout m resp hs hst ht]
          obtain ⟨tl, htl⟩ := ih (timeout - c.DefaultIntervalShort)
            ((m.afterDescribe Id).Sleep c.DefaultIntervalShort)
          exact ⟨Call.DescribeCdnDomainDetail Id :: Call.Sleep c.DefaultIntervalShort :: tl, by
            rw [htl]; simp [Meta.Sleep, Meta.afterDescribe]⟩

/-- The request before the checks on `sources` and `source_type`. -/
theorem resourceAlicloudCdnDomainCreate.args_normal (c : Common) (d : CdnDomainData) :
    resourceAlicloudCdnDomainCreate.args c d =
      if d.cdn_type ≠ c.LiveStream then
        if (GetOkSet d.sources).2 && decide ((GetOkSet d.sources).1.length > 0) then
          if (GetOkString d.source_type).2
              && decide ((GetOkString d.source_type).1 ≠ "") then
            .ok { DomainName := d.domain_name, CdnType := d.cdn_type,
                  SourcePort := d.source_port.getD 80,
                  Sources := stringsJoin (c.expandStringList (GetOkSet d.sources).1) ",",
                  SourceType := (GetOkString d.source_type).1,
                  Scope := d.scope.getD "" }
          else
            .error (.errorf "SourceType is required when 'cdn_type' is not 'liveStream'.")
        else
          .error (.errorf "Sources is required when 'cdn_type' is not 'liveStream'.")
      else
        .ok { DomainName := d.domain_name, CdnType := d.cdn_type,
              SourcePort := d.source_port.getD 80, Sources := "", SourceType := "",
              Scope := d.scope.getD "" } := by
  have hscope : (if (GetOkString d.scope).2 = true then
        ({ DomainName := d.domain_name, CdnType := d.cdn_type, SourcePort := d.getSourcePort,
           Scope := (GetOkString d.scope).1 } : AddDomainRequest)
      else { DomainName := d.domain_name, CdnType := d.cdn_type,
             SourcePort := d.getSourcePort })
      = { DomainName := d.domain_name, CdnType := d.cdn_type,
          SourcePort := d.source_port.getD 80, Scope := d.scope.getD "" } := by
    rcases hsc : d.scope with _ | v
    · simp [GetOkString, CdnDomainData.getSourcePort]
    · by_cases hv : v = "" <;> simp [GetOkString, CdnDomainData.getSourcePort, hv]
  unfold resourceAlicloudCdnDomainCreate.args
  simp only [hscope]

theorem resourceAlicloudCdnDomainCreate.args_liveStream (c : Common) (d : CdnDomainData)
    (h : d.cdn_type = c.LiveStream) :
    resourceAlicloudCdnDomainCreate.args c d = .ok
      { DomainName := d.domain_name, CdnType := d.cdn_type,
        SourcePort := d.source_port.getD 80, Sources := "", SourceType := "",
        Scope := d.scope.getD "" } := by
  rw [resourceAlicloudCdnDomainCreate.args_normal, if_neg (by simpa using h)]

theorem resourceAlicloudCdnDomainCreate.args_sources_missing (c : Common)
    (d : CdnDomainData) (h : d.cdn_type ≠ c.LiveStream) (hs : d.sourcesMissing) :
    resourceAlicloudCdnDomainCreate.args c d
      = .error (.errorf "Sources is required when 'cdn_type' is not 'liveStream'.") := by
  rw [resourceAlicloudCdnDomainCreate.args_normal, if_pos h]
  rcases hs with hs | hs <;> simp [GetOkSet, hs]

theorem sources_present (d : CdnDomainData) (hs : ¬ d.sourcesMissing) :
    ∃ x xs, d.sources = some (x :: xs) := by
  rcases hd : d.sources with _ | l
  · exact absurd (Or.inl hd) hs
  · cases l with
    | nil => exact absurd (Or.inr hd) hs
    | cons x xs => exact ⟨x, xs, rfl⟩

theorem resourceAlicloudCdnDomainCreate.args_source_type_missing (c : Common)
    (d : CdnDomainData) (h : d.cdn_type ≠ c.LiveStream) (hs : ¬ d.sourcesMissing)
    (ht : d.sourceTypeMissing) :
    resourceAlicloudCdnDomainCreate.args c d
      = .error (.errorf "SourceType is required when 'cdn_type' is not 'liveStream'.") := by
  obtain ⟨x, xs, hx⟩ := sources_present d hs
  rw [resourceAlicloudCdnDomainCreate.args_normal, if_pos h]
  rcases ht with ht | ht <;> simp [GetOkSet, hx, ht, GetOkString]

theorem resourceAlicloudCdnDomainCreate.args_complete (c : Common)
    (d : CdnDomainData) (h : d.cdn_type ≠ c.LiveStream) (hs : ¬ d.sourcesMissing)
    (ht : ¬ d.sourceTypeMissing) :
    ∃ args, resourceAlicloudCdnDomainCreate.args c d = .ok args := by
  obtain ⟨x, xs, hx⟩ := sources_present d hs
  have hty : ∃ v, d.source_type = some v ∧ v ≠ "" := by
    rcases hd : d.source_type with _ | v
    · exact absurd (Or.inl hd) ht
    · refine ⟨v, rfl, ?_⟩
      intro hv
      exact ht (Or.inr (by rw [hd, hv]))
  obtain ⟨v, hv, hv2⟩ := hty
  rw [resourceAlicloudCdnDomainCreate.args_normal, if_pos h]
  simp [GetOkSet, hx, hv, hv2, GetOkString]

theorem resourceAlicloudCdnDomainCreate_of_args_error (c : Common)
    (update : CdnDomainData → Option GoError × CdnDomainData) (fuel : Nat)
    (d : CdnDomainData) (m : Meta) (e : GoError)
    (h : resourceAlicloudCdnDomainCreate.args c d = .error e) :
    resourceAlicloudCdnDomainCreate c update fuel d m = (some (some e), d, m) := by
  simp [resourceAlicloudCdnDomainCreate, h]

theorem WaitForDomainStatus_log (c : Common) (fuel : Nat) (Id status : String) (t : Int)
    (m : Meta) : ∃ tl, (WaitForDomainStatus c fuel Id status t m).2.log = m.log ++ tl :=
  WaitForDomainStatus.loop_log c Id status fuel (effectiveTimeout c t) m

theorem resourceAlicloudCdnDomainCreate_log (c : Common)
    (update : CdnDomainData → Option GoError × CdnDomainData) (fuel : Nat)
    (d : CdnDomainData) (m : Meta) (args : AddDomainRequest)
    (h : resourceAlicloudCdnDomainCreate.args c d = .ok args) :
    ∃ tl, (resourceAlicloudCdnDomainCreate c update fuel d m).2.2.log
      = m.log ++ Call.AddCdnDomain args :: tl := by
  unfold resourceAlicloudCdnDomainCreate
  rw [h]
  dsimp only
  rcases hadd : (m.call (Call.AddCdnDomain args)).AddCdnDomain args with _ | err
  · dsimp only
    obtain ⟨tl, htl⟩ := WaitForDomainStatus_log c fuel args.DomainName c.Configuring 60
      (m.call (Call.AddCdnDomain args))
    rcases hw : WaitForDomainStatus c fuel args.DomainName c.Configuring 60
      (m.call (Call.AddCdnDomain args)) with ⟨r, m2⟩
    rw [hw] at htl
    simp only [Meta.call] at htl
    rcases r with _ | _ | err
    · exact ⟨tl, by simp [htl]⟩
    · exact ⟨tl ++ [Call.resourceAlicloudCdnDomainUpdate args.DomainName], by
        simp [Meta.call, htl]⟩
    · exact ⟨tl, by simp [htl]⟩
  · exact ⟨[], by simp [Meta.call]⟩

/-- C3: pre-flight validation of `resourceAlicloudCdnDomainCreate`.  For every
configuration, `Create` returns an error without any call having been made and with
the resource data (the ID included) untouched if and only if `cdn_type` is not
`liveStream` and `sources` or `source_type` is unset or empty.  The error is
`Sources is required ...` when `sources` is missing, which is checked first, and
`SourceType is required ...` otherwise; in every other case `AddCdnDomain` is the
first call made. -/
theorem resourceAlicloudCdnDomainCreate_validation (c : Common)
    (update : CdnDomainData → Option GoError × CdnDomainData) (fuel : Nat)
    (d : CdnDomainData) (m : Meta) :
    ((∃ e, (resourceAlicloudCdnDomainCreate c update fuel d m).1 = some (some e) ∧
        (resourceAlicloudCdnDomainCreate c update fuel d m).2.1 = d ∧
        (resourceAlicloudCdnDomainCreate c update fuel d m).2.2.log = m.log) ↔
      (d.cdn_type ≠ c.LiveStream ∧ (d.sourcesMissing ∨ d.sourceTypeMissing))) ∧
    (d.cdn_type ≠ c.LiveStream → d.sourcesMissing →
      resourceAlicloudCdnDomainCreate c update fuel d m =
        (some (some (.errorf "Sources is required when 'cdn_type' is not 'liveStream'.")),
          d, m)) ∧
    (d.cdn_type ≠ c.LiveStream → ¬ d.sourcesMissing → d.sourceTypeMissing →
      resourceAlicloudCdnDomainCreate c update fuel d m =
        (some (some (.errorf "SourceType is required when 'cdn_type' is not 'liveStream'.")),
          d, m)) ∧
    (¬ (d.cdn_type ≠ c.LiveStream ∧ (d.sourcesMissing ∨ d.sourceTypeMissing)) →
      ∃ args tl, (resourceAlicloudCdnDomainCreate c update fuel d m).2.2.log
        = m.log ++ Call.AddCdnDomain args :: tl) := by
  have hsrc : d.cdn_type ≠ c.LiveStream → d.sourcesMissing →
      resourceAlicloudCdnDomainCreate c update fuel d m =
        (some (some (.errorf "Sources is required when 'cdn_type' is not 'liveStream'.")),
          d, m) := fun h hs =>
    resourceAlicloudCdnDomainCreate_of_args_error c update fuel d m _
      (resourceAlicloudCdnDomainCreate.args_sources_missing c d h hs)
  have hty : d.cdn_type ≠ c.LiveStream → ¬ d.sourcesMissing → d.sourceTypeMissing →
      resourceAlicloudCdnDomainCreate c update fuel d m =
        (some (some (.errorf "SourceType is required when 'cdn_type' is not 'liveStream'.")),
          d, m) := fun h hs ht =>
    resourceAlicloudCdnDomainCreate_of_args_error c update fuel d m _
      (resourceAlicloudCdnDomainCreate.args_source_type_missing c d h hs ht)
  have hcall : ¬ (d.cdn_type ≠ c.LiveStream ∧ (d.sourcesMissing ∨ d.sourceTypeMissing)) →
      ∃ args tl, (resourceAlicloudCdnDomainCreate c update fuel d m).2.2.log
        = m.log ++ Call.AddCdnDomain args :: tl := by
    intro hn
    have hargs : ∃ args, resourceAlicloudCdnDomainCreate.args c d = .ok args := by
      by_cases hl : d.cdn_type = c.LiveStream
      · exact ⟨_, resourceAlicloudCdnDomainCreate.args_liveStream c d hl⟩
      · exact resourceAlicloudCdnDomainCreate.args_complete c d hl
          (fun hs => hn ⟨hl, Or.inl hs⟩) (fun ht => hn ⟨hl, Or.inr ht⟩)
    obtain ⟨args, ha⟩ := hargs
    obtain ⟨tl, htl⟩ := resourceAlicloudCdnDomainCreate_log c update fuel d m args ha
    exact ⟨args, tl, htl⟩
  refine ⟨⟨?_, ?_⟩, hsrc, hty, hcall⟩
  · rintro ⟨e, -, -, hlog⟩
    by_contra hn
    obtain ⟨args, tl, htl⟩ := hcall hn
    rw [hlog] at htl
    have := congrArg List.length htl
    simp at this
  · rintro ⟨hl, hmiss⟩
    by_cases hs : d.sourcesMissing
    · exact ⟨_, by rw [hsrc hl hs]; exact ⟨rfl, rfl, rfl⟩⟩
    · rcases hmiss with hs1 | ht
      · exact absurd hs1 hs
      · exact ⟨_, by rw [hty hl hs ht]; exact ⟨rfl, rfl, rfl⟩⟩

/-- C4: with `cdn_type` equal to `liveStream`, `resourceAlicloudCdnDomainCreate` needs
neither `sources` nor `source_type`: validation yields a request, whatever these two
attributes are, and `AddCdnDomain` is the first call made, with that request: its
`Sources` and `SourceType` are empty, `DomainName`, `CdnType` and `SourcePort` are those
of the configuration, and `Scope` is the configured scope, empty when none is set. -/
theorem resourceAlicloudCdnDomainCreate_liveStream (c : Common)
    (update : CdnDomainData → Option GoError × CdnDomainData) (fuel : Nat)
    (d : CdnDomainData) (m : Meta) (h : d.cdn_type = c.LiveStream) :
    resourceAlicloudCdnDomainCreate.args c d = .ok
      { DomainName := d.domain_name, CdnType := d.cdn_type,
        SourcePort := d.source_port.getD 80, Sources := "", SourceType := "",
        Scope := d.scope.getD "" } ∧
    (d.scope = none →
      ∃ args, resourceAlicloudCdnDomainCreate.args c d = .ok args ∧ args.Scope = "") ∧
    ∃ tl, (resourceAlicloudCdnDomainCreate c update fuel d m).2.2.log
      = m.log ++ Call.AddCdnDomain
          { DomainName := d.domain_name, CdnType := d.cdn_type,
            SourcePort := d.source_port.getD 80, Sources := "", SourceType := "",
            Scope := d.scope.getD "" } :: tl := by
  have ha := resourceAlicloudCdnDomainCreate.args_liveStream c d h
  refine ⟨ha, ?_, resourceAlicloudCdnDomainCreate_log c update fuel d m _ ha⟩
  intro hs
  exact ⟨_, ha, by simp [hs]⟩

/-- Witness for C4: a live-streaming domain that sets `sources` and `source_type`. -/
theorem resourceAlicloudCdnDomainCreate_liveStream_witness :
    resourceAlicloudCdnDomainCreate.args sampleCommon sampleLiveDomain = .ok
      { DomainName := "live.example.com", CdnType := "liveStream",
        SourcePort := 80, Sources := "", SourceType := "", Scope := "" } ∧
    (sampleLiveDomain.scope = none →
      ∃ args, resourceAlicloudCdnDomainCreate.args sampleCommon sampleLiveDomain = .ok args ∧
        args.Scope = "") ∧
    ∃ tl, (resourceAlicloudCdnDomainCreate sampleCommon sampleUpdate 12 sampleLiveDomain
        sampleMeta).2.2.log
      = sampleMeta.log ++ Call.AddCdnDomain
          { DomainName := "live.example.com", CdnType := "liveStream",
            SourcePort := 80, Sources := "", SourceType := "", Scope := "" } :: tl :=
  resourceAlicloudCdnDomainCreate_liveStream sampleCommon sampleUpdate 12 sampleLiveDomain
    sampleMeta (by decide)

/-- C5, as stated, fails: when the first `DescribeDomainDetail` poll fails, `Create`
returns `Timeout when Cdn Domain Available` although `WaitForDomainStatus` made a single
poll of the twelve allowed and returned the error of that poll, not a timeout. -/
theorem resourceAlicloudCdnDomainCreate_timeout_counterexample :
    (resourceAlicloudCdnDomainCreate sampleCommon sampleUpdate 12 sampleWebDomain
        failingMeta).1 = some (some (.errorf "Timeout when Cdn Domain Available")) ∧
    ceilDiv 60 sampleCommon.DefaultIntervalShort = 12 ∧
    ¬ (∀ i, i < 12 → pollMisses failingMeta sampleCommon.Configuring i = true) ∧
    (WaitForDomainStatus sampleCommon 12 "www.example.com" sampleCommon.Configuring 60
        (failingMeta.call (Call.AddCdnDomain sampleWebRequest))).1
      = some (some (.errorf
          "DescribeCdnDomainDetail got an error: common.Error(InternalError)")) ∧
    describes (resourceAlicloudCdnDomainCreate sampleCommon sampleUpdate 12 sampleWebDomain
        failingMeta).2.2.log = 1 := by
  refine ⟨by decide, by decide, ?_, by decide, by decide⟩
  intro h
  exact absurd (h 0 (by decide)) (by decide)

theorem resourceAlicloudCdnDomainCreate.args_DomainName (c : Common) (d : CdnDomainData)
    (args : AddDomainRequest) (h : resourceAlicloudCdnDomainCreate.args c d = .ok args) :
    args.DomainName = d.domain_name := by
  rw [resourceAlicloudCdnDomainCreate.args_normal] at h
  split_ifs at h <;> cases h <;> rfl

theorem update_not_mem_pollTrace (Id : String) (k : Int) (id : String) (i : Nat) :
    Call.resourceAlicloudCdnDomainUpdate id ∉ pollTrace Id k i := by
  induction i with
  | zero => simp [pollTrace]
  | succ i ih => simp [pollTrace, ih]

/-- C5, amended: after validation and a successful `AddCdnDomain`, with a positive
polling interval, `resourceAlicloudCdnDomainCreate` returns the error
`Timeout when Cdn Domain Available`, without running `Update`, exactly when
`WaitForDomainStatus` returned an error, which is the case when all allowed polls
reported another status or when a poll failed before the awaited status was seen.
The resource ID is then the configured `domain_name`.  When the wait succeeded, `Update`
is run on the resource data whose ID is `domain_name` and its result is returned; so
`Update` runs only if the wait succeeded. -/
theorem resourceAlicloudCdnDomainCreate_wait (c : Common)
    (hk : 0 < c.DefaultIntervalShort)
    (update : CdnDomainData → Option GoError × CdnDomainData) (fuel : Nat)
    (d : CdnDomainData) (m : Meta) (args : AddDomainRequest)
    (hargs : resourceAlicloudCdnDomainCreate.args c d = .ok args)
    (hadd : m.AddCdnDomain args = none)
    (hfuel : ceilDiv 60 c.DefaultIntervalShort ≤ fuel) :
    ∃ (w : Option GoError) (m1 : Meta) (tr : List Call),
      WaitForDomainStatus c fuel d.domain_name c.Configuring 60
        (m.call (Call.AddCdnDomain args)) = (some w, m1) ∧
      (resourceAlicloudCdnDomainCreate c update fuel d m).2.2.log
        = m.log ++ Call.AddCdnDomain args :: tr ∧
      (w ≠ none ↔
        ((resourceAlicloudCdnDomainCreate c update fuel d m).1
            = some (some (.errorf "Timeout when Cdn Domain Available")) ∧
          Call.resourceAlicloudCdnDomainUpdate d.domain_name ∉ tr)) ∧
      (w ≠ none ↔
        ((∀ i, i < ceilDiv 60 c.DefaultIntervalShort →
            pollMisses m c.Configuring (m.described + i) = true) ∨
          ∃ i e, i < ceilDiv 60 c.DefaultIntervalShort ∧
            pollFails m (m.described + i) e ∧
            ∀ j, j < i → pollMisses m c.Configuring (m.described + j) = true)) ∧
      (w ≠ none →
        resourceAlicloudCdnDomainCreate c update fuel d m =
          (some (some (.errorf "Timeout when Cdn Domain Available")),
            { d with id := d.domain_name }, m1)) ∧
      (w = none →
        resourceAlicloudCdnDomainCreate c update fuel d m =
          (some (update { d with id := d.domain_name }).1,
            (update { d with id := d.domain_name }).2,
            m1.call (Call.resourceAlicloudCdnDomainUpdate d.domain_name))) ∧
      (Call.resourceAlicloudCdnDomainUpdate d.domain_name ∈ tr ↔ w = none) := by
  have hname := resourceAlicloudCdnDomainCreate.args_DomainName c d args hargs
  have hT : 0 < effectiveTimeout c 60 := by simp [effectiveTimeout]
  have hfuel1 : ceilDiv (effectiveTimeout c 60) c.DefaultIntervalShort ≤ fuel := by
    simpa [effectiveTimeout] using hfuel
  have h60 : effectiveTimeout c 60 = 60 := by simp [effectiveTimeout]
  obtain ⟨n, i, w, m1, hn, hi, hrun, hlog, -, -, -, hmiss, hcase⟩ :=
    WaitForDomainStatus_spec c hk d.domain_name c.Configuring 60 hT
      (m.call (Call.AddCdnDomain args)) fuel hfuel1
  rw [h60] at hn
  have hd : (m.call (Call.AddCdnDomain args)).described = m.described := rfl
  have hscript : ∀ j, pollMisses (m.call (Call.AddCdnDomain args)) c.Configuring j
      = pollMisses m c.Configuring j := fun j => rfl
  have hscript1 : ∀ j, pollHits (m.call (Call.AddCdnDomain args)) c.Configuring j
      = pollHits m c.Configuring j := fun j => rfl
  simp only [hd, hscript, hscript1] at hmiss hcase
  have hfail : ∀ j e, pollFails (m.call (Call.AddCdnDomain args)) j e ↔ pollFails m j e :=
    fun j e => Iff.rfl
  have hlog1 : m1.log
      = m.log ++ Call.AddCdnDomain args :: pollTrace d.domain_name c.DefaultIntervalShort i := by
    rw [hlog]; simp [Meta.call]
  have hnotin := update_not_mem_pollTrace d.domain_name c.DefaultIntervalShort d.domain_name i
  have herr : w ≠ none →
      resourceAlicloudCdnDomainCreate c update fuel d m =
        (some (some (.errorf "Timeout when Cdn Domain Available")),
          { d with id := d.domain_name }, m1) := by
    intro hw
    obtain ⟨e, rfl⟩ : ∃ e, w = some e := Option.ne_none_iff_exists'.mp hw
    unfold resourceAlicloudCdnDomainCreate
    rw [hargs]
    dsimp only
    rw [show (m.call (Call.AddCdnDomain args)).AddCdnDomain args = none from hadd]
    dsimp only
    rw [hname, hrun]
  have hok : w = none →
      resourceAlicloudCdnDomainCreate c update fuel d m =
        (some (update { d with id := d.domain_name }).1,
          (update { d with id := d.domain_name }).2,
          m1.call (Call.resourceAlicloudCdnDomainUpdate d.domain_name)) := by
    intro hw
    subst hw
    unfold resourceAlicloudCdnDomainCreate
    rw [hargs]
    dsimp only
    rw [show (m.call (Call.AddCdnDomain args)).AddCdnDomain args = none from hadd]
    dsimp only
    rw [hname, hrun]
  by_cases hw : w = none
  · refine ⟨w, m1, pollTrace d.domain_name c.DefaultIntervalShort i
        ++ [Call.resourceAlicloudCdnDomainUpdate d.domain_name], hrun, ?_, ?_, ?_, herr, hok, ?_⟩
    · rw [hok hw]; simp [Meta.call, hlog1]
    · constructor
      · intro h; exact absurd hw h
      · rintro ⟨-, hnot⟩; exact absurd (by simp) hnot
    · constructor
      · intro h; exact absurd hw h
      · intro hor
        exfalso
        have hhit : pollHits m c.Configuring (m.described + i) = true := by
          rcases hcase with ⟨hh, -⟩ | ⟨e, -, hr⟩ | ⟨-, -, hr⟩
          · exact hh
          · rw [hw] at hr; exact absurd hr (by simp)
          · rw [hw] at hr; exact absurd hr (by simp)
        have hnm := pollHits_not_misses m c.Configuring _ hhit
        rcases hor with hall | ⟨i1, e, hi1, hf, hm⟩
        · have := hall i (by omega)
          rw [hnm] at this
          exact absurd this (by decide)
        · have hii : i1 = i :=
            stop_unique m c.Configuring m.described n i i1 (by omega) hmiss hm
              (pollFails_not_misses m c.Configuring _ e hf) (Or.inl hnm)
          subst hii
          rw [pollFails_not_hits m c.Configuring _ e hf] at hhit
          exact absurd hhit (by decide)
    · simp [hw]
  · refine ⟨w, m1, pollTrace d.domain_name c.DefaultIntervalShort i, hrun, ?_, ?_, ?_,
      herr, hok, ?_⟩
    · rw [herr hw]; exact hlog1
    · constructor
      · intro _; exact ⟨by rw [herr hw], hnotin⟩
      · intro _; exact hw
    · constructor
      · intro _
        rcases hcase with ⟨-, hr⟩ | ⟨e, hf, -⟩ | ⟨hin, hm, -⟩
        · exact absurd hr hw
        · exact Or.inr ⟨i, e, by omega, hf, hmiss⟩
        · refine Or.inl ?_
          intro j hj
          by_cases hji : j < i
          · exact hmiss j hji
          · have : j = i := by omega
            subst this
            exact hm
      · intro _; exact hw
    · constructor
      · intro h; exact absurd h hnotin
      · intro h; exact absurd h hw

/-- Witness for the amended C5: the sample web domain on the sample handle. -/
theorem resourceAlicloudCdnDomainCreate_wait_witness :
    ∃ (w : Option GoError) (m1 : Meta) (tr : List Call),
      WaitForDomainStatus sampleCommon 12 sampleWebDomain.domain_name sampleCommon.Configuring 60
        (sampleMeta.call (Call.AddCdnDomain sampleWebRequest)) = (some w, m1) ∧
      (resourceAlicloudCdnDomainCreate sampleCommon sampleUpdate 12 sampleWebDomain sampleMeta).2.2.log
        = sampleMeta.log ++ Call.AddCdnDomain sampleWebRequest :: tr ∧
      (w ≠ none ↔
        ((resourceAlicloudCdnDomainCreate sampleCommon sampleUpdate 12 sampleWebDomain sampleMeta).1
            = some (some (.errorf "Timeout when Cdn Domain Available")) ∧
          Call.resourceAlicloudCdnDomainUpdate sampleWebDomain.domain_name ∉ tr)) ∧
      (w ≠ none ↔
        ((∀ i, i < ceilDiv 60 sampleCommon.DefaultIntervalShort →
            pollMisses sampleMeta sampleCommon.Configuring (sampleMeta.described + i) = true) ∨
          ∃ i e, i < ceilDiv 60 sampleCommon.DefaultIntervalShort ∧
            pollFails sampleMeta (sampleMeta.described + i) e ∧
            ∀ j, j < i → pollMisses sampleMeta sampleCommon.Configuring (sampleMeta.described + j) = true)) ∧
      (w ≠ none →
        resourceAlicloudCdnDomainCreate sampleCommon sampleUpdate 12 sampleWebDomain sampleMeta =
          (some (some (.errorf "Timeout when Cdn Domain Available")),
            { sampleWebDomain with id := sampleWebDomain.domain_name }, m1)) ∧
      (w = none →
        resourceAlicloudCdnDomainCreate sampleCommon sampleUpdate 12 sampleWebDomain sampleMeta =
          (some (sampleUpdate { sampleWebDomain with id := sampleWebDomain.domain_name }).1,
            (sampleUpdate { sampleWebDomain with id := sampleWebDomain.domain_name }).2,
            m1.call (Call.resourceAlicloudCdnDomainUpdate sampleWebDomain.domain_name))) ∧
      (Call.resourceAlicloudCdnDomainUpdate sampleWebDomain.domain_name ∈ tr ↔ w = none) :=
  resourceAlicloudCdnDomainCreate_wait sampleCommon (by decide) sampleUpdate 12
    sampleWebDomain sampleMeta sampleWebRequest rfl rfl (by decide)

/-! ### `page404ConfigUpdate` and `authConfigUpdate` -/

theorem Itoa_samples : Itoa 1800 = "1800" ∧ Itoa (-5) = "-5" ∧ Itoa 0 = "0" := by decide

theorem callSetErrorPageConfig_log (args : ErrorPageConfigRequest) (m : Meta) :
    (callSetErrorPageConfig args m).2.log = m.log ++ [Call.SetErrorPageConfig args] := by
  unfold callSetErrorPageConfig
  dsimp only
  split <;> rfl

theorem callSetReqAuthConfig_log (args : ReqAuthConfigRequest) (m : Meta) :
    (callSetReqAuthConfig args m).2.log = m.log ++ [Call.SetReqAuthConfig args] := by
  unfold callSetReqAuthConfig
  dsimp only
  split <;> rfl

/-- C6: the accept set of `page404ConfigUpdate`.  For every non-empty `page_404_config`
block with `page_type` `p` and `custom_page_url` `u`, `SetErrorPageConfig` is called,
with `PageType` `p` and `CustomPageUrl` `u` (empty when `u` is absent), if and only if
none of these holds: `p` is `charity` and `u` is absent or differs from
`CharityPageUrl`; `p` is `default` and `u` is present and non-empty; `p` is `other` and
`u` is absent or empty.  In each rejected case an error is returned and no call is
made. -/
theorem page404ConfigUpdate_accepts (c : Common) (id : String) (val : Page404Config)
    (rest : List Page404Config) (m : Meta) :
    ((page404ConfigUpdate c id (val :: rest) m).2.log
        = m.log ++ [Call.SetErrorPageConfig
            { DomainName := id, PageType := val.page_type,
              CustomPageUrl := val.custom_page_url.getD "" }] ↔
      ¬ ((val.page_type = "charity" ∧
            (val.custom_page_url = none ∨ val.custom_page_url ≠ some c.CharityPageUrl)) ∨
         (val.page_type = "default" ∧ ∃ u, val.custom_page_url = some u ∧ u ≠ "") ∨
         (val.page_type = "other" ∧
            (val.custom_page_url = none ∨ val.custom_page_url = some "")))) ∧
    (((val.page_type = "charity" ∧
            (val.custom_page_url = none ∨ val.custom_page_url ≠ some c.CharityPageUrl)) ∨
         (val.page_type = "default" ∧ ∃ u, val.custom_page_url = some u ∧ u ≠ "") ∨
         (val.page_type = "other" ∧
            (val.custom_page_url = none ∨ val.custom_page_url = some ""))) →
      ∃ text, page404ConfigUpdate c id (val :: rest) m = (some (.errorf text), m)) := by
  obtain ⟨p, u⟩ := val
  rcases u with _ | u
  · by_cases h1 : p = "charity"
    · subst h1
      simp [page404ConfigUpdate]
    · by_cases h2 : p = "default"
      · subst h2
        simp +decide [page404ConfigUpdate, callSetErrorPageConfig_log]
      · by_cases h3 : p = "other"
        · subst h3
          simp +decide [page404ConfigUpdate]
        · simp [page404ConfigUpdate, callSetErrorPageConfig_log, h1, h2, h3]
  · by_cases h1 : p = "charity"
    · subst h1
      by_cases hu : u = c.CharityPageUrl
      · simp +decide [page404ConfigUpdate, callSetErrorPageConfig_log, hu]
      · simp +decide [page404ConfigUpdate, hu]
    · by_cases h2 : p = "default"
      · subst h2
        by_cases hu : u = ""
        · simp +decide [page404ConfigUpdate, callSetErrorPageConfig_log, hu]
        · simp +decide [page404ConfigUpdate, hu]
      · by_cases h3 : p = "other"
        · subst h3
          by_cases hu : u = ""
          · simp +decide [page404ConfigUpdate, hu]
          · simp +decide [page404ConfigUpdate, callSetErrorPageConfig_log, hu]
        · simp [page404ConfigUpdate, callSetErrorPageConfig_log, h1, h2, h3]

/-- C7: `authConfigUpdate` with `auth_type` equal to `no_auth` and no previous
`auth_config`.  The update is rejected with the error
`If 'auth_type' value is 'no_auth', you can not set the value of 'master_key' and
'slave_key'.`, no call being made, if and only if the element sets `master_key` or
`slave_key`; an element that sets neither key is sent to `SetReqAuthConfig` with
`AuthType` `no_auth`. -/
theorem authConfigUpdate_no_auth (id : String) (val : AuthConfig) (rest : List AuthConfig)
    (m : Meta) (h : val.auth_type = "no_auth") :
    (authConfigUpdate id [] (val :: rest) m =
        (some (.errorf "If 'auth_type' value is 'no_auth', you can not set the value of 'master_key' and 'slave_key'."), m) ↔
      (val.master_key.isSome = true ∨ val.slave_key.isSome = true)) ∧
    ((authConfigUpdate id [] (val :: rest) m).2.log = m.log ↔
      (val.master_key.isSome = true ∨ val.slave_key.isSome = true)) ∧
    (val.master_key = none → val.slave_key = none →
      (authConfigUpdate id [] (val :: rest) m).2.log
        = m.log ++ [Call.SetReqAuthConfig
            { DomainName := id, AuthType := "no_auth", Key1 := "", Key2 := "",
              Timeout := Itoa val.timeout }]) := by
  obtain ⟨a, t, mk, sk⟩ := val
  simp only at h
  subst h
  rcases mk with _ | mk <;> rcases sk with _ | sk <;>
    simp [authConfigUpdate, callSetReqAuthConfig_log]
  intro hcon
  have := congrArg (fun r => r.2.log) hcon
  simp [callSetReqAuthConfig_log] at this

/-- Witness for C7: an element with `auth_type` `no_auth` and no key. -/
theorem authConfigUpdate_no_auth_witness :
    (authConfigUpdate "www.example.com" [] (sampleNoAuth :: []) sampleMeta =
        (some (.errorf "If 'auth_type' value is 'no_auth', you can not set the value of 'master_key' and 'slave_key'."), sampleMeta) ↔
      (sampleNoAuth.master_key.isSome = true ∨ sampleNoAuth.slave_key.isSome = true)) ∧
    ((authConfigUpdate "www.example.com" [] (sampleNoAuth :: []) sampleMeta).2.log = sampleMeta.log ↔
      (sampleNoAuth.master_key.isSome = true ∨ sampleNoAuth.slave_key.isSome = true)) ∧
    (sampleNoAuth.master_key = none → sampleNoAuth.slave_key = none →
      (authConfigUpdate "www.example.com" [] (sampleNoAuth :: []) sampleMeta).2.log
        = sampleMeta.log ++ [Call.SetReqAuthConfig
            { DomainName := "www.example.com", AuthType := "no_auth", Key1 := "", Key2 := "",
              Timeout := Itoa sampleNoAuth.timeout }]) :=
  authConfigUpdate_no_auth "www.example.com" sampleNoAuth [] sampleMeta (by decide)

/-- C8: `authConfigUpdate` with a signed `auth_type` (any value other than `no_auth`).
`SetReqAuthConfig` is called if and only if both `master_key` and `slave_key` are set;
otherwise the error ending in `you must set 'master_key' and 'slave_key' at one time.`
is returned and no call is made.  The request of the call carries `Key1 = master_key`,
`Key2 = slave_key` and `Timeout = strconv.Itoa(timeout)`. -/
theorem authConfigUpdate_signed (id : String) (oldConfig : List AuthConfig)
    (val : AuthConfig) (rest : List AuthConfig) (m : Meta)
    (h : val.auth_type ≠ "no_auth") :
    ((∃ args, (authConfigUpdate id oldConfig (val :: rest) m).2.log
        = m.log ++ [Call.SetReqAuthConfig args]) ↔
      (val.master_key.isSome = true ∧ val.slave_key.isSome = true)) ∧
    (¬ (val.master_key.isSome = true ∧ val.slave_key.isSome = true) →
      authConfigUpdate id oldConfig (val :: rest) m =
        (some (.errorf ("If 'auth_type' value is one of ['type_a', 'type_b', 'type_c'], "
          ++ "you must set 'master_key' and 'slave_key' at one time" ++ ".")), m)) ∧
    (∀ k1 k2, val.master_key = some k1 → val.slave_key = some k2 →
      (authConfigUpdate id oldConfig (val :: rest) m).2.log
        = m.log ++ [Call.SetReqAuthConfig
            { DomainName := id, AuthType := val.auth_type, Key1 := k1, Key2 := k2,
              Timeout := Itoa val.timeout }]) := by
  have hmsg : "If 'auth_type' value is one of ['type_a', 'type_b', 'type_c'], "
      ++ "you must set 'master_key' and 'slave_key' at one time" ++ "."
      = "If 'auth_type' value is one of ['type_a', 'type_b', 'type_c'], you must set 'master_key' and 'slave_key' at one time." := by
    decide
  rw [hmsg]
  obtain ⟨a, t, mk, sk⟩ := val
  simp only at h
  rcases mk with _ | mk <;> rcases sk with _ | sk <;>
    simp [authConfigUpdate, callSetReqAuthConfig_log, h]

/-- Witness for C8: an element with `auth_type` `type_a` and both keys. -/
theorem authConfigUpdate_signed_witness :
    ((∃ args, (authConfigUpdate "www.example.com" [] (sampleTypeA :: []) sampleMeta).2.log
        = sampleMeta.log ++ [Call.SetReqAuthConfig args]) ↔
      (sampleTypeA.master_key.isSome = true ∧ sampleTypeA.slave_key.isSome = true)) ∧
    (¬ (sampleTypeA.master_key.isSome = true ∧ sampleTypeA.slave_key.isSome = true) →
      authConfigUpdate "www.example.com" [] (sampleTypeA :: []) sampleMeta =
        (some (.errorf ("If 'auth_type' value is one of ['type_a', 'type_b', 'type_c'], "
          ++ "you must set 'master_key' and 'slave_key' at one time" ++ ".")), sampleMeta)) ∧
    (∀ k1 k2, sampleTypeA.master_key = some k1 → sampleTypeA.slave_key = some k2 →
      (authConfigUpdate "www.example.com" [] (sampleTypeA :: []) sampleMeta).2.log
        = sampleMeta.log ++ [Call.SetReqAuthConfig
            { DomainName := "www.example.com", AuthType := sampleTypeA.auth_type, Key1 := k1, Key2 := k2,
              Timeout := Itoa sampleTypeA.timeout }]) :=
  authConfigUpdate_signed "www.example.com" [] sampleTypeA [] sampleMeta (by decide)

/-! ### The log project resource -/

/-- One run of the function that `resourceAlicloudLogProjectRead` hands to the invoker,
for each of the three kinds of `GetProject` outcome. -/
theorem resourceAlicloudLogProjectRead.func1_cases (c : Common) (d : LogProjectData)
    (m : Meta) :
    (∀ err, m.GetProject d.id = .error err →
      c.IsExceptedError (.sdk err) c.ProjectNotExist = true →
      resourceAlicloudLogProjectRead.func1 c d m =
        (none, { id := "", name := d.name, description := d.description },
          m.call (Call.GetProject d.id))) ∧
    (∀ err, m.GetProject d.id = .error err →
      c.IsExceptedError (.sdk err) c.ProjectNotExist = false →
      resourceAlicloudLogProjectRead.func1 c d m =
        (some (.errorf ("GetProject got an error: " ++ err.text ++ ".")), d,
          m.call (Call.GetProject d.id))) ∧
    (∀ project, m.GetProject d.id = .ok project →
      resourceAlicloudLogProjectRead.func1 c d m =
        (none, { id := d.id, name := project.Name, description := project.Description },
          m.call (Call.GetProject d.id))) ∧
    resourceAlicloudLogProjectRead c (fun f => f) d m
      = resourceAlicloudLogProjectRead.func1 c d m ∧
    (∀ Run, resourceAlicloudLogProjectRead c Run d m
      = Run (resourceAlicloudLogProjectRead.func1 c) d m) := by
  refine ⟨?_, ?_, ?_, rfl, fun _ => rfl⟩
  · intro err hget hex
    have hget1 : (m.call (Call.GetProject d.id)).GetProject d.id = .error err := hget
    simp [resourceAlicloudLogProjectRead.func1, hget1, hex]
  · intro err hget hex
    have hget1 : (m.call (Call.GetProject d.id)).GetProject d.id = .error err := hget
    simp [resourceAlicloudLogProjectRead.func1, hget1, hex, GoError.Error]
  · intro project hget
    have hget1 : (m.call (Call.GetProject d.id)).GetProject d.id = .ok project := hget
    simp [resourceAlicloudLogProjectRead.func1, hget1]

/-- The classification of one attempt of `resourceAlicloudLogProjectDelete`, for every
pair of `DeleteProject` and `CheckProjectExist` outcomes. -/
theorem resourceAlicloudLogProjectDelete.func1_classes (c : Common) (d : LogProjectData)
    (m : Meta) :
    ((resourceAlicloudLogProjectDelete.func1 c d m).2.log
        = m.log ++ [Call.DeleteProject d.id] ∨
      (resourceAlicloudLogProjectDelete.func1 c d m).2.log
        = m.log ++ [Call.DeleteProject d.id, Call.CheckProjectExist d.id]) ∧
    ((resourceAlicloudLogProjectDelete.func1 c d m).2.log
        = m.log ++ [Call.DeleteProject d.id, Call.CheckProjectExist d.id] ↔
      (m.DeleteProject d.id = none ∨
        ∃ e, m.DeleteProject d.id = some e ∧
          c.IsExceptedErrors (.sdk e) [c.LogClientTimeout] = false ∧
          c.IsExceptedErrors (.sdk e) [c.ProjectNotExist] = true)) ∧
    ((resourceAlicloudLogProjectDelete.func1 c d m).1 = none ↔
      ((m.DeleteProject d.id = none ∨
          ∃ e, m.DeleteProject d.id = some e ∧
            c.IsExceptedErrors (.sdk e) [c.ProjectNotExist] = true) ∧
        (resourceAlicloudLogProjectDelete.func1 c d m).2.log
          = m.log ++ [Call.DeleteProject d.id, Call.CheckProjectExist d.id] ∧
        m.CheckProjectExist d.id = .ok false)) ∧
    (RetryError.retryable (resourceAlicloudLogProjectDelete.func1 c d m).1 = true ↔
      ((∃ e, m.DeleteProject d.id = some e ∧
          c.IsExceptedErrors (.sdk e) [c.LogClientTimeout] = true) ∨
        ((resourceAlicloudLogProjectDelete.func1 c d m).2.log
            = m.log ++ [Call.DeleteProject d.id, Call.CheckProjectExist d.id] ∧
          ((∃ e, m.CheckProjectExist d.id = .error e ∧
              c.IsExceptedErrors (.sdk e) [c.LogClientTimeout] = true) ∨
            m.CheckProjectExist d.id = .ok true)))) ∧
    (RetryError.nonRetryable (resourceAlicloudLogProjectDelete.func1 c d m).1 = true ↔
      ((resourceAlicloudLogProjectDelete.func1 c d m).1 ≠ none ∧
        ¬ ((∃ e, m.DeleteProject d.id = some e ∧
            c.IsExceptedErrors (.sdk e) [c.LogClientTimeout] = true) ∨
          ((resourceAlicloudLogProjectDelete.func1 c d m).2.log
              = m.log ++ [Call.DeleteProject d.id, Call.CheckProjectExist d.id] ∧
            ((∃ e, m.CheckProjectExist d.id = .error e ∧
                c.IsExceptedErrors (.sdk e) [c.LogClientTimeout] = true) ∨
              m.CheckProjectExist d.id = .ok true))))) ∧
    (m.CheckProjectExist d.id = .ok true →
      (resourceAlicloudLogProjectDelete.func1 c d m).1 ≠ none) := by
  have hd : (m.call (Call.DeleteProject d.id)).DeleteProject d.id = m.DeleteProject d.id := rfl
  have hc : ∀ m1 : Meta, (m1.call (Call.CheckProjectExist d.id)).CheckProjectExist d.id
      = m1.CheckProjectExist d.id := fun _ => rfl
  have hc1 : (m.call (Call.DeleteProject d.id)).CheckProjectExist d.id
      = m.CheckProjectExist d.id := rfl
  rcases hdel : m.DeleteProject d.id with _ | e
  · rcases hchk : m.CheckProjectExist d.id with e2 | b
    · by_cases h3 : c.IsExceptedErrors (.sdk e2) [c.LogClientTimeout] = true
      · simp [resourceAlicloudLogProjectDelete.func1, resourceAlicloudLogProjectDelete.check,
          hd, hc, hc1, hdel, hchk, h3, Meta.call, RetryError.retryable,
          RetryError.nonRetryable]
      · simp [resourceAlicloudLogProjectDelete.func1, resourceAlicloudLogProjectDelete.check,
          hd, hc, hc1, hdel, hchk, h3, Meta.call, RetryError.retryable,
          RetryError.nonRetryable]
    · cases b <;>
        simp [resourceAlicloudLogProjectDelete.func1, resourceAlicloudLogProjectDelete.check,
          hd, hc, hc1, hdel, hchk, Meta.call, RetryError.retryable,
          RetryError.nonRetryable]
  · by_cases h1 : c.IsExceptedErrors (.sdk e) [c.LogClientTimeout] = true
    · simp [resourceAlicloudLogProjectDelete.func1, hd, hdel, h1, Meta.call,
        RetryError.retryable, RetryError.nonRetryable]
    · by_cases h2 : c.IsExceptedErrors (.sdk e) [c.ProjectNotExist] = true
      · rcases hchk : m.CheckProjectExist d.id with e2 | b
        · by_cases h3 : c.IsExceptedErrors (.sdk e2) [c.LogClientTimeout] = true
          · simp [resourceAlicloudLogProjectDelete.func1,
              resourceAlicloudLogProjectDelete.check,
              hd, hc, hc1, hdel, hchk, h1, h2, h3, Meta.call, RetryError.retryable,
              RetryError.nonRetryable]
          · simp [resourceAlicloudLogProjectDelete.func1,
              resourceAlicloudLogProjectDelete.check,
              hd, hc, hc1, hdel, hchk, h1, h2, h3, Meta.call, RetryError.retryable,
              RetryError.nonRetryable]
        · cases b <;>
            simp [resourceAlicloudLogProjectDelete.func1,
              resourceAlicloudLogProjectDelete.check,
              hd, hc, hc1, hdel, hchk, h1, h2, Meta.call, RetryError.retryable,
              RetryError.nonRetryable]
      · simp [resourceAlicloudLogProjectDelete.func1, hd, hdel, h1, h2, Meta.call,
          RetryError.retryable, RetryError.nonRetryable]

/-! ### `resourceAlicloudCdnDomainDelete` -/

/-- C12: classification of one attempt of `resourceAlicloudCdnDomainDelete`.  For every
`DeleteCdnDomain` outcome, the attempt succeeds if and only if `DeleteCdnDomain`
returned no error; it is retryable if and only if the error is `ServiceBusy`, and its
error is then `The specified Domain is configuring, please retry later.`; every other
error is non-retryable, with the error `Error deleting cdn domain <id>: ... .`.  The
only call made is `DeleteCdnDomain` with the resource ID as domain name.  The delete
function is `resource.Retry` applied to this attempt. -/
theorem resourceAlicloudCdnDomainDelete_attempt (c : Common) (id : String) (m : Meta) :
    (resourceAlicloudCdnDomainDelete.func1 c id m).2.log
      = m.log ++ [Call.DeleteCdnDomain id] ∧
    ((resourceAlicloudCdnDomainDelete.func1 c id m).1 = none ↔
      m.DeleteCdnDomain id = none) ∧
    (RetryError.retryable (resourceAlicloudCdnDomainDelete.func1 c id m).1 = true ↔
      ∃ err, m.DeleteCdnDomain id = some err ∧
        c.IsExceptedError (.sdk err) c.ServiceBusy = true) ∧
    (∀ err, m.DeleteCdnDomain id = some err →
      c.IsExceptedError (.sdk err) c.ServiceBusy = true →
      (resourceAlicloudCdnDomainDelete.func1 c id m).1 = some (.RetryableError
        (.errorf "The specified Domain is configuring, please retry later."))) ∧
    (∀ err, m.DeleteCdnDomain id = some err →
      c.IsExceptedError (.sdk err) c.ServiceBusy = false →
      (resourceAlicloudCdnDomainDelete.func1 c id m).1 = some (.NonRetryableError
        (.errorf ("Error deleting cdn domain " ++ id ++ ": " ++ err.goSyntax ++ ".")))) ∧
    (RetryError.nonRetryable (resourceAlicloudCdnDomainDelete.func1 c id m).1 = true ↔
      ∃ err, m.DeleteCdnDomain id = some err ∧
        c.IsExceptedError (.sdk err) c.ServiceBusy = false) ∧
    (∀ Retry, resourceAlicloudCdnDomainDelete c Retry id m
      = Retry (resourceAlicloudCdnDomainDelete.func1 c id) m) := by
  have hd : (m.call (Call.DeleteCdnDomain id)).DeleteCdnDomain id = m.DeleteCdnDomain id := rfl
  rcases hdel : m.DeleteCdnDomain id with _ | e
  · simp [resourceAlicloudCdnDomainDelete.func1, resourceAlicloudCdnDomainDelete, hd, hdel,
      Meta.call, RetryError.retryable, RetryError.nonRetryable]
  · by_cases h1 : c.IsExceptedError (.sdk e) c.ServiceBusy = true
    · simp [resourceAlicloudCdnDomainDelete.func1, resourceAlicloudCdnDomainDelete, hd, hdel,
        h1, Meta.call, RetryError.retryable, RetryError.nonRetryable]
    · simp [resourceAlicloudCdnDomainDelete.func1, resourceAlicloudCdnDomainDelete, hd, hdel,
        h1, Meta.call, RetryError.retryable, RetryError.nonRetryable]

/-! ### `resourceAlicloudLogProjectCreate` and the importer -/

/-- C11: import of a log project agrees with create.  The importer passes on resource
data that hold the ID only; `resourceAlicloudLogProjectCreate` sets the ID to the `Name`
of the project that `CreateProject` returns; and the read function takes `name` and
`description` from `GetProject(ID)` alone.  Hence, with an invoker that hands on the
result of a run that returns `nil`, for every project `p` returned by `CreateProject`
and every project `q` that `GetProject` returns for the name of `p`: importing that
name and reading gives the same state as creating and reading, namely the ID `p.Name`
with the name and description of `q`, and neither returns an error. -/
theorem resourceAlicloudLogProject_import_agrees (c : Common)
    (Run : (LogProjectData → Meta → Option GoError × LogProjectData × Meta) →
      LogProjectData → Meta → Option GoError × LogProjectData × Meta)
    (hRun : ∀ f d m, (f d m).1 = none → Run f d m = f d m)
    (d : LogProjectData) (m : Meta) (p q : LogProject)
    (hcreate : m.CreateProject d.name d.description = .ok p)
    (hget : m.GetProject p.Name = .ok q) :
    ImportStatePassthrough (importData p.Name)
      = [{ id := p.Name, name := "", description := "" }] ∧
    (resourceAlicloudLogProjectCreate c Run d m).1 = none ∧
    (resourceAlicloudLogProjectRead c Run (importData p.Name) m).1 = none ∧
    (resourceAlicloudLogProjectCreate c Run d m).2.1
      = { id := p.Name, name := q.Name, description := q.Description } ∧
    (resourceAlicloudLogProjectRead c Run (importData p.Name) m).2.1
      = (resourceAlicloudLogProjectCreate c Run d m).2.1 := by
  have hc1 : resourceAlicloudLogProjectCreate.func1 d m
      = (none, { d with id := p.Name }, m.call (Call.CreateProject d.name d.description)) := by
    have h : (m.call (Call.CreateProject d.name d.description)).CreateProject d.name
        d.description = .ok p := hcreate
    simp [resourceAlicloudLogProjectCreate.func1, h]
  have hr : ∀ (d0 : LogProjectData) (m0 : Meta), d0.id = p.Name →
      m0.GetProject = m.GetProject →
      resourceAlicloudLogProjectRead c Run d0 m0
        = (none, { id := p.Name, name := q.Name, description := q.Description },
            m0.call (Call.GetProject p.Name)) := by
    intro d0 m0 hid hm0
    have h : (m0.call (Call.GetProject d0.id)).GetProject d0.id = .ok q := by
      show m0.GetProject d0.id = .ok q
      rw [hm0, hid]; exact hget
    have hf : resourceAlicloudLogProjectRead.func1 c d0 m0
        = (none, { id := p.Name, name := q.Name, description := q.Description },
            m0.call (Call.GetProject p.Name)) := by
      rw [hid] at h
      simp [resourceAlicloudLogProjectRead.func1, hid, h]
    unfold resourceAlicloudLogProjectRead
    rw [hRun _ d0 m0 (by rw [hf]), hf]
  have hcr : resourceAlicloudLogProjectCreate c Run d m
      = (none, { id := p.Name, name := q.Name, description := q.Description },
          (m.call (Call.CreateProject d.name d.description)).call (Call.GetProject p.Name)) := by
    unfold resourceAlicloudLogProjectCreate
    rw [hRun _ d m (by rw [hc1]), hc1]
    exact hr _ _ rfl rfl
  have him := hr (importData p.Name) m rfl rfl
  refine ⟨rfl, by rw [hcr], by rw [him], by rw [hcr], by rw [him, hcr]⟩

/-- Witness for C11: the sample handle with an invoker that runs its function once. -/
theorem resourceAlicloudLogProject_import_agrees_witness :
    ImportStatePassthrough (importData "project-a")
      = [{ id := "project-a", name := "", description := "" }] ∧
    (resourceAlicloudLogProjectCreate sampleCommon runOnce
      { name := "project-a", description := "first" } sampleMeta).1 = none ∧
    (resourceAlicloudLogProjectRead sampleCommon runOnce (importData "project-a")
      sampleMeta).1 = none ∧
    (resourceAlicloudLogProjectCreate sampleCommon runOnce
      { name := "project-a", description := "first" } sampleMeta).2.1
      = { id := "project-a", name := "project-a", description := "sample project" } ∧
    (resourceAlicloudLogProjectRead sampleCommon runOnce (importData "project-a")
      sampleMeta).2.1
      = (resourceAlicloudLogProjectCreate sampleCommon runOnce
          { name := "project-a", description := "first" } sampleMeta).2.1 :=
  resourceAlicloudLogProject_import_agrees sampleCommon runOnce (fun _ _ _ _ => rfl)
    { name := "project-a", description := "first" } sampleMeta
    { Name := "project-a", Description := "first" }
    { Name := "project-a", Description := "sample project" } rfl rfl

/-! ### Integer fields on the wire -/

/-- C14, as stated, fails in its last part: the string `99999999999999999999x` is not a
decimal integer, yet `strconv.Atoi` ends with `ErrRange` at the twentieth digit, before
it sees the `x`, and with the error dropped the field reads back as the largest `int`
and not as `0`. -/
theorem Atoi_not_decimal_counterexample :
    isDecimalInteger "99999999999999999999x" = false ∧
    Atoi "99999999999999999999x" = (9223372036854775807, some .ErrRange) ∧
    (resourceAlicloudCdnDomainRead.authConfig
      { AuthType := "type_a", TimeOut := "99999999999999999999x" }).timeout
      = 9223372036854775807 ∧
    (resourceAlicloudCdnDomainRead.authConfig
      { AuthType := "type_a", TimeOut := "99999999999999999999x" }).timeout ≠ 0 := by
  decide

theorem digitChar_spec : ∀ m, m < 10 →
    isDigit (digitChar m) = true ∧ (digitChar m).toNat - 48 = m := by
  decide

theorem foldl_digits_ge (cs : List Char) :
    ∀ k, k ≤ cs.foldl (fun a c => a * 10 + (c.toNat - 48)) k := by
  induction cs with
  | nil => intro k; exact le_refl _
  | cons c cs ih =>
    intro k
    simp only [List.foldl_cons]
    exact le_trans (by omega) (ih _)

/-- The digits that `formatBits` puts in front of `acc` are decimal digits, at least one
of them, and their value is `n`. -/
theorem formatBits_spec : ∀ (fuel n : Nat) (acc : List Char), n < 10 ^ (fuel + 1) →
    ∃ pre, formatBits (fuel + 1) n acc = pre ++ acc ∧ pre ≠ [] ∧
      (∀ c ∈ pre, isDigit c = true) ∧
      ∀ k, pre.foldl (fun a c => a * 10 + (c.toNat - 48)) k = k * 10 ^ pre.length + n := by
  intro fuel
  induction fuel with
  | zero =>
    intro n acc hn
    have hn10 : n < 10 := by simpa using hn
    refine ⟨[digitChar n], ?_, by simp, ?_, ?_⟩
    · simp [formatBits, hn10]
    · intro c hc
      simp only [List.mem_singleton] at hc
      rw [hc]; exact (digitChar_spec n hn10).1
    · intro k
      simp [(digitChar_spec n hn10).2]
  | succ fuel ih =>
    intro n acc hn
    by_cases hn10 : n < 10
    · refine ⟨[digitChar n], ?_, by simp, ?_, ?_⟩
      · simp [formatBits, hn10]
      · intro c hc
        simp only [List.mem_singleton] at hc
        rw [hc]; exact (digitChar_spec n hn10).1
      · intro k
        simp [(digitChar_spec n hn10).2]
    · have hdiv : n / 10 < 10 ^ (fuel + 1) := by
        rw [Nat.div_lt_iff_lt_mul (by decide)]
        rw [pow_succ] at hn
        exact hn
      have hmod : n % 10 < 10 := Nat.mod_lt _ (by decide)
      obtain ⟨pre, hpre, hne, hdig, hval⟩ := ih (n / 10) (digitChar (n % 10) :: acc) hdiv
      refine ⟨pre ++ [digitChar (n % 10)], ?_, by simp, ?_, ?_⟩
      · rw [formatBits, if_neg hn10, hpre]; simp
      · intro c hc
        rcases List.mem_append.mp hc with h | h
        · exact hdig c h
        · simp only [List.mem_singleton] at h
          rw [h]; exact (digitChar_spec _ hmod).1
      · intro k
        rw [List.foldl_append, hval k]
        simp only [List.foldl_cons, List.foldl_nil, (digitChar_spec _ hmod).2,
          List.length_append, List.length_singleton, pow_succ]
        have := Nat.div_add_mod n 10
        nlinarith [this]

/-- On decimal digits whose value stays within `uint64`, the loop of `ParseUint` reads
that value and reports no error. -/
theorem ParseUint.loop_digits (cs : List Char) :
    ∀ n, (∀ c ∈ cs, isDigit c = true) →
      cs.foldl (fun a c => a * 10 + (c.toNat - 48)) n ≤ 18446744073709551615 →
      ParseUint.loop cs n = (cs.foldl (fun a c => a * 10 + (c.toNat - 48)) n, none) := by
  induction cs with
  | nil => intro n _ _; rfl
  | cons c cs ih =>
    intro n hdig hval
    have hc : isDigit c = true := hdig c (List.mem_cons_self _ _)
    simp only [List.foldl_cons] at hval ⊢
    have hstep := le_trans (foldl_digits_ge cs (n * 10 + (c.toNat - 48))) hval
    have h1 : ¬ n ≥ 1844674407370955162 := by omega
    have h2 : n * 10 % 18446744073709551616 = n * 10 := Nat.mod_eq_of_lt (by omega)
    have h3 : (n * 10 + (c.toNat - 48)) % 18446744073709551616 = n * 10 + (c.toNat - 48) :=
      Nat.mod_eq_of_lt (by omega)
    rw [ParseUint.loop]
    simp only [hc, Bool.true_eq_false, if_false, h2, h3]
    rw [if_neg h1, if_neg (by omega)]
    exact ih _ (fun c1 h => hdig c1 (List.mem_cons_of_mem _ h)) hval

theorem isDigit_not_sign (c : Char) (h : isDigit c = true) : c ≠ '+' ∧ c ≠ '-' := by
  constructor
  · intro hc; rw [hc] at h; exact absurd h (by decide)
  · intro hc; rw [hc] at h; exact absurd h (by decide)

/-- The digits of `Itoa`: for a natural number within `uint64`, `ParseUint` reads the
output of `formatBits` back. -/
theorem ParseUint_formatBits (a : Nat) (ha : a ≤ 18446744073709551615) :
    ∃ c cs, formatBits (a + 1) a [] = c :: cs ∧ isDigit c = true ∧
      ParseUint (c :: cs) = (a, none) := by
  have hlt : a < 10 ^ (a + 1) :=
    lt_of_lt_of_le (Nat.lt_pow_self (by decide) a) (Nat.pow_le_pow_right (by decide) (by omega))
  obtain ⟨pre, hpre, hne, hdig, hval⟩ := formatBits_spec a a [] hlt
  rw [List.append_nil] at hpre
  obtain ⟨c, cs, rfl⟩ : ∃ c cs, pre = c :: cs := by
    cases pre with
    | nil => exact absurd rfl hne
    | cons c cs => exact ⟨c, cs, rfl⟩
  have hv0 := hval 0
  rw [Nat.zero_mul, Nat.zero_add] at hv0
  refine ⟨c, cs, hpre, hdig c (List.mem_cons_self _ _), ?_⟩
  have hloop := ParseUint.loop_digits (c :: cs) 0 hdig (by rw [hv0]; exact ha)
  rw [hv0] at hloop
  simp [ParseUint, hloop]

/-- The round trip of an `int`: `strconv.Atoi` reads the output of `strconv.Itoa` back
without error. -/
theorem Atoi_Itoa (n : Int) (hlo : -9223372036854775808 ≤ n) (hhi : n < 9223372036854775808) :
    Atoi (Itoa n) = (n, none) := by
  obtain ⟨c, cs, hfmt, hc, hparse⟩ := ParseUint_formatBits n.natAbs (by omega)
  obtain ⟨hplus, hminus⟩ := isDigit_not_sign c hc
  by_cases hneg : n < 0
  · have hItoa : Itoa n = String.mk ('-' :: c :: cs) := by
      simp [Itoa, hneg, hfmt]
    rw [hItoa]
    have hres : int64 (-(int64 (n.natAbs : Int))) = n := by
      unfold int64; omega
    have hle : ¬ n.natAbs > 9223372036854775808 := by omega
    rw [Int.natCast_natAbs] at hres
    simp [Atoi, ParseInt, hparse, hle, hres]
  · have hItoa : Itoa n = String.mk (c :: cs) := by
      simp [Itoa, hneg, hfmt]
    rw [hItoa]
    have hres : int64 (n.natAbs : Int) = n := by
      unfold int64; omega
    have hlt : ¬ n.natAbs ≥ 9223372036854775808 := by omega
    rw [Int.natCast_natAbs] at hres
    simp [Atoi, ParseInt, hparse, hplus, hminus, hlt, hres]

/-- On a string with a byte that is no digit, the loop of `ParseUint` ends with an
error: `ErrSyntax` and `0`, or `ErrRange` and the largest `uint64`. -/
theorem ParseUint.loop_invalid (cs : List Char) :
    ∀ n, cs.all isDigit = false →
      ParseUint.loop cs n = (0, some .ErrSyntax) ∨
      ParseUint.loop cs n = (18446744073709551615, some .ErrRange) := by
  induction cs with
  | nil => intro n h; simp at h
  | cons c cs ih =>
    intro n h
    rw [ParseUint.loop]
    by_cases hc : isDigit c = false
    · rw [if_pos hc]; exact Or.inl rfl
    · rw [if_neg hc]
      have hrest : cs.all isDigit = false := by
        simp only [List.all_cons, Bool.and_eq_false_iff] at h
        rcases h with h | h
        · exact absurd h hc
        · exact h
      dsimp only
      split_ifs
      · exact Or.inr rfl
      · exact Or.inr rfl
      · exact ih _ hrest

/-- On a string of at most 19 bytes with a byte that is no digit, the loop of
`ParseUint` ends with `ErrSyntax` and `0`: so few digits do not leave `uint64`. -/
theorem ParseUint.loop_invalid_short (cs : List Char) :
    ∀ n k, cs.length + k ≤ 19 → n < 10 ^ k → cs.all isDigit = false →
      ParseUint.loop cs n = (0, some .ErrSyntax) := by
  induction cs with
  | nil => intro n k _ _ h; simp at h
  | cons c cs ih =>
    intro n k hlen hn h
    rw [ParseUint.loop]
    by_cases hc : isDigit c = false
    · rw [if_pos hc]
    · rw [if_neg hc]
      have hrest : cs.all isDigit = false := by
        simp only [List.all_cons, Bool.and_eq_false_iff] at h
        rcases h with h | h
        · exact absurd h hc
        · exact h
      have hd : c.toNat - 48 ≤ 9 := by
        have : isDigit c = true := by simpa using hc
        simp only [isDigit, decide_eq_true_eq] at this
        omega
      simp only [List.length_cons] at hlen
      have hk : k ≤ 18 := by omega
      have hpow : 10 ^ k ≤ 10 ^ 18 := Nat.pow_le_pow_right (by decide) hk
      have hpow18 : (10 : Nat) ^ 18 = 1000000000000000000 := by norm_num
      have hsucc : 10 ^ (k + 1) = 10 ^ k * 10 := pow_succ 10 k
      have h1 : ¬ n ≥ 1844674407370955162 := by omega
      have h2 : n * 10 % 18446744073709551616 = n * 10 := Nat.mod_eq_of_lt (by omega)
      have h3 : (n * 10 + (c.toNat - 48)) % 18446744073709551616
          = n * 10 + (c.toNat - 48) := Nat.mod_eq_of_lt (by omega)
      simp only [h2, h3]
      rw [if_neg h1, if_neg (by omega)]
      exact ih _ (k + 1) (by omega) (by omega) hrest

theorem ParseUint_invalid (s1 : List Char) (h : s1 = [] ∨ s1.all isDigit = false) :
    (ParseUint s1 = (0, some .ErrSyntax) ∨
      ParseUint s1 = (18446744073709551615, some .ErrRange)) ∧
    (s1.length ≤ 19 → ParseUint s1 = (0, some .ErrSyntax)) := by
  by_cases hnil : s1 = []
  · subst hnil
    exact ⟨Or.inl rfl, fun _ => rfl⟩
  · have hall : s1.all isDigit = false := by
      rcases h with h | h
      · exact absurd h hnil
      · exact h
    unfold ParseUint
    rw [if_neg hnil]
    exact ⟨ParseUint.loop_invalid s1 0 hall,
      fun hlen => ParseUint.loop_invalid_short s1 0 0 (by omega) (by norm_num) hall⟩

/-- What `ParseInt` makes of the two errors of `ParseUint`. -/
theorem ParseInt_of_ParseUint_error (c : Char) (cs : List Char) :
    (ParseUint (if c = '+' ∨ c = '-' then cs else c :: cs) = (0, some .ErrSyntax) →
      ParseInt (c :: cs) = (0, some .ErrSyntax)) ∧
    (ParseUint (if c = '+' ∨ c = '-' then cs else c :: cs)
        = (18446744073709551615, some .ErrRange) →
      ParseInt (c :: cs) = (9223372036854775807, some .ErrRange) ∨
      ParseInt (c :: cs) = (-9223372036854775808, some .ErrRange)) := by
  constructor
  · intro h
    simp [ParseInt, h]
  · intro h
    by_cases hneg : c = '-'
    · right
      simp only [hneg, or_true, if_true] at h
      simp [ParseInt, h, hneg]
    · left
      simp only [hneg, or_false] at h
      simp [ParseInt, h, hneg]

theorem Atoi_not_decimal (s : String) (h : isDecimalInteger s = false) :
    (Atoi s = (0, some .ErrSyntax) ∨
      Atoi s = (9223372036854775807, some .ErrRange) ∨
      Atoi s = (-9223372036854775808, some .ErrRange)) ∧
    (s.data.length ≤ 19 → Atoi s = (0, some .ErrSyntax)) := by
  unfold isDecimalInteger at h
  unfold Atoi
  rcases hs : s.data with _ | ⟨c, cs⟩
  · exact ⟨Or.inl rfl, fun _ => rfl⟩
  · rw [hs] at h
    have hrest : (if c = '+' ∨ c = '-' then cs else c :: cs) = [] ∨
        (if c = '+' ∨ c = '-' then cs else c :: cs).all isDigit = false := by
      by_cases hsign : c = '+' ∨ c = '-'
      · simp only [hsign, if_true] at h ⊢
        cases cs with
        | nil => exact Or.inl rfl
        | cons c1 cs1 => right; simpa using h
      · simp only [hsign, if_false] at h ⊢
        exact Or.inr h
    have hlen : (if c = '+' ∨ c = '-' then cs else c :: cs).length ≤ (c :: cs).length := by
      split_ifs <;> simp
    obtain ⟨hany, hshort⟩ := ParseUint_invalid _ hrest
    obtain ⟨hsyn, hrange⟩ := ParseInt_of_ParseUint_error c cs
    refine ⟨?_, ?_⟩
    · rcases hany with h1 | h1
      · exact Or.inl (hsyn h1)
      · exact Or.inr (hrange h1)
    · intro hl
      exact hsyn (hshort (le_trans hlen hl))

/-- C14, amended: integer fields survive the string wire format.  Update encodes
`auth_config.timeout`, `cache_config.ttl` and `cache_config.weight` with `strconv.Itoa`
and Read decodes the remote strings with `strconv.Atoi`, dropping the error; so for
every `int` `n`, decoding the encoding of `n` yields `n` with no error, in each of the
three fields.  A remote string that is not a decimal integer reads back as `0` when it
has at most 19 bytes; in general it reads back as `0`, or as the largest or smallest
`int` when its leading digits leave 64 bits before the first invalid byte. -/
theorem wire_integers_round_trip (n : Int) (hlo : -9223372036854775808 ≤ n)
    (hhi : n < 9223372036854775808) :
    Atoi (Itoa n) = (n, none) ∧
    (∀ id val, val.ttl = n →
      (cacheConfigUpdate.args id val).TTL = Itoa n ∧
      (∀ v : CacheExpiredConfig, v.TTL = (cacheConfigUpdate.args id val).TTL →
        (resourceAlicloudCdnDomainRead.cacheConfig v).ttl = n)) ∧
    (∀ id val, val.weight = n →
      (cacheConfigUpdate.args id val).Weight = Itoa n ∧
      (∀ v : CacheExpiredConfig, v.Weight = (cacheConfigUpdate.args id val).Weight →
        (resourceAlicloudCdnDomainRead.cacheConfig v).weight = n)) ∧
    (∀ authConfig : ReqAuthConfig, authConfig.TimeOut = Itoa n →
      (resourceAlicloudCdnDomainRead.authConfig authConfig).timeout = n) ∧
    (∀ s, isDecimalInteger s = false → s.data.length ≤ 19 → (Atoi s).1 = 0) ∧
    (∀ s, isDecimalInteger s = false →
      (Atoi s).2 ≠ none ∧
      ((Atoi s).1 = 0 ∨ (Atoi s).1 = 9223372036854775807 ∨
        (Atoi s).1 = -9223372036854775808)) := by
  have hrt := Atoi_Itoa n hlo hhi
  refine ⟨hrt, ?_, ?_, ?_, ?_, ?_⟩
  · intro id val hval
    refine ⟨by simp [cacheConfigUpdate.args, hval], ?_⟩
    intro v hv
    simp [resourceAlicloudCdnDomainRead.cacheConfig, hv, cacheConfigUpdate.args, hval, hrt]
  · intro id val hval
    refine ⟨by simp [cacheConfigUpdate.args, hval], ?_⟩
    intro v hv
    simp [resourceAlicloudCdnDomainRead.cacheConfig, hv, cacheConfigUpdate.args, hval, hrt]
  · intro authConfig hv
    simp [resourceAlicloudCdnDomainRead.authConfig, hv, hrt]
  · intro s hs hlen
    rw [(Atoi_not_decimal s hs).2 hlen]
  · intro s hs
    rcases (Atoi_not_decimal s hs).1 with h | h | h <;> rw [h] <;> simp

/-- Witness for the amended C14: the default timeout `1800`. -/
theorem wire_integers_round_trip_witness :
    Atoi (Itoa 1800) = (1800, none) ∧ Itoa 1800 = "1800" ∧
    (resourceAlicloudCdnDomainRead.authConfig { TimeOut := Itoa 1800 }).timeout = 1800 :=
  ⟨(wire_integers_round_trip 1800 (by decide) (by decide)).1, by decide,
    (wire_integers_round_trip 1800 (by decide) (by decide)).2.2.2.1 _ rfl⟩

/-! ### `UpgradeDBInstanceNetWorkInfoWithChan` -/

theorem UpgradeDBInstanceNetWorkInfoWithChan_ran_ok (client : Client)
    (request : UpgradeDBInstanceNetWorkInfoRequest)
    (response : UpgradeDBInstanceNetWorkInfoResponse)
    (hadd : client.AddAsyncTask = .ran)
    (hsync : client.UpgradeDBInstanceNetWorkInfo request = (response, none)) :
    Client.UpgradeDBInstanceNetWorkInfoWithChan client request = .ok
      { responseChan := { cap := 1, buf := [response], closed := true },
        errChan := { cap := 1, buf := [], closed := true },
        ops := [ChanOp.sendResponse response, ChanOp.closeErrChan,
          ChanOp.closeResponseChan] } := by
  simp [Client.UpgradeDBInstanceNetWorkInfoWithChan, hadd,
    Client.UpgradeDBInstanceNetWorkInfoWithChan.func1, hsync, Chans.sendResponse,
    Chans.closeErrChan, Chans.closeResponseChan, Chan.send, Chan.close]

theorem UpgradeDBInstanceNetWorkInfoWithChan_ran_error (client : Client)
    (request : UpgradeDBInstanceNetWorkInfoRequest)
    (response : UpgradeDBInstanceNetWorkInfoResponse) (err : GoError)
    (hadd : client.AddAsyncTask = .ran)
    (hsync : client.UpgradeDBInstanceNetWorkInfo request = (response, some err)) :
    Client.UpgradeDBInstanceNetWorkInfoWithChan client request = .ok
      { responseChan := { cap := 1, buf := [], closed := true },
        errChan := { cap := 1, buf := [err], closed := true },
        ops := [ChanOp.sendErr err, ChanOp.closeErrChan, ChanOp.closeResponseChan] } := by
  simp [Client.UpgradeDBInstanceNetWorkInfoWithChan, hadd,
    Client.UpgradeDBInstanceNetWorkInfoWithChan.func1, hsync, Chans.sendErr,
    Chans.closeErrChan, Chans.closeResponseChan, Chan.send, Chan.close]

theorem UpgradeDBInstanceNetWorkInfoWithChan_rejected (client : Client)
    (request : UpgradeDBInstanceNetWorkInfoRequest) (err : GoError)
    (hadd : client.AddAsyncTask = .rejected err) :
    Client.UpgradeDBInstanceNetWorkInfoWithChan client request = .ok
      { responseChan := { cap := 1, buf := [], closed := true },
        errChan := { cap := 1, buf := [err], closed := true },
        ops := [ChanOp.sendErr err, ChanOp.closeResponseChan, ChanOp.closeErrChan] } := by
  simp [Client.UpgradeDBInstanceNetWorkInfoWithChan, hadd, Chans.sendErr,
    Chans.closeErrChan, Chans.closeResponseChan, Chan.send, Chan.close]

/-- C13: `UpgradeDBInstanceNetWorkInfoWithChan` delivers exactly one result.  In either
outcome of `AddAsyncTask`, the task accepted and run to completion or rejected with an
error, no channel operation panics or blocks, exactly one value in total is sent over
the two channels, and both channels are closed exactly once, after the send.  The value
is the response, on the response channel, if and only if the task ran and the
synchronous `UpgradeDBInstanceNetWorkInfo` call returned no error; otherwise it is the
error, of the call or of `AddAsyncTask`, on the error channel. -/
theorem UpgradeDBInstanceNetWorkInfoWithChan_one_result (client : Client)
    (request : UpgradeDBInstanceNetWorkInfoRequest) :
    ∃ st, Client.UpgradeDBInstanceNetWorkInfoWithChan client request = .ok st ∧
      st.responseChan.buf.length + st.errChan.buf.length = 1 ∧
      st.responseChan.closed = true ∧ st.errChan.closed = true ∧
      st.ops.count ChanOp.closeResponseChan = 1 ∧
      st.ops.count ChanOp.closeErrChan = 1 ∧
      st.ops.length = 3 ∧
      ((∃ response, st.ops.head? = some (ChanOp.sendResponse response)) ∨
        (∃ err, st.ops.head? = some (ChanOp.sendErr err))) ∧
      ((∃ response, st.responseChan.buf = [response]) ↔
        (client.AddAsyncTask = .ran ∧
          (client.UpgradeDBInstanceNetWorkInfo request).2 = none)) ∧
      (client.AddAsyncTask = .ran →
        (client.UpgradeDBInstanceNetWorkInfo request).2 = none →
        st.responseChan.buf = [(client.UpgradeDBInstanceNetWorkInfo request).1] ∧
        st.errChan.buf = [] ∧
        st.ops = [ChanOp.sendResponse (client.UpgradeDBInstanceNetWorkInfo request).1,
          ChanOp.closeErrChan, ChanOp.closeResponseChan]) ∧
      (client.AddAsyncTask = .ran →
        ∀ err, (client.UpgradeDBInstanceNetWorkInfo request).2 = some err →
        st.errChan.buf = [err] ∧ st.responseChan.buf = [] ∧
        st.ops = [ChanOp.sendErr err, ChanOp.closeErrChan, ChanOp.closeResponseChan]) ∧
      (∀ err, client.AddAsyncTask = .rejected err →
        st.errChan.buf = [err] ∧ st.responseChan.buf = [] ∧
        st.ops = [ChanOp.sendErr err, ChanOp.closeResponseChan, ChanOp.closeErrChan]) := by
  rcases hadd : client.AddAsyncTask with _ | err
  · rcases hsync : client.UpgradeDBInstanceNetWorkInfo request with ⟨response, _ | err⟩
    · refine ⟨_, UpgradeDBInstanceNetWorkInfoWithChan_ran_ok client request response hadd
        hsync, ?_⟩
      simp
    · refine ⟨_, UpgradeDBInstanceNetWorkInfoWithChan_ran_error client request response err
        hadd hsync, ?_⟩
      simp
  · refine ⟨_, UpgradeDBInstanceNetWorkInfoWithChan_rejected client request err hadd, ?_⟩
    simp

/-! ### The log project resource under the invoker and the retry helper -/

theorem Invoker.Run_nil (caught : GoError → Bool) (n : Nat)
    (f : LogProjectData → Meta → Option GoError × LogProjectData × Meta)
    (d : LogProjectData) (m : Meta) (h : (f d m).1 = none) :
    Invoker.Run caught n f d m = f d m := by
  rcases hf : f d m with ⟨r, d1, m1⟩
  rw [hf] at h
  simp only at h
  subst h
  cases n <;> simp [Invoker.Run, hf]

theorem Invoker.Run_uncaught (caught : GoError → Bool) (n : Nat)
    (f : LogProjectData → Meta → Option GoError × LogProjectData × Meta)
    (d : LogProjectData) (m : Meta) (err : GoError) (h : (f d m).1 = some err)
    (hc : caught err = false) :
    Invoker.Run caught n f d m = f d m := by
  rcases hf : f d m with ⟨r, d1, m1⟩
  rw [hf] at h
  simp only at h
  subst h
  cases n <;> simp [Invoker.Run, hf, hc]

theorem retryAttempts_nil (n : Nat) (f : Meta → Option RetryError × Meta) :
    ∀ m, (retryAttempts n f m).1 = none →
      ∃ m0, (f m0).1 = none ∧ (retryAttempts n f m).2 = (f m0).2 := by
  induction n with
  | zero =>
    intro m h
    rcases hf : f m with ⟨_ | _ | _, m1⟩
    · exact ⟨m, by rw [hf], by simp [retryAttempts, hf]⟩
    · simp [retryAttempts, hf] at h
    · simp [retryAttempts, hf] at h
  | succ n ih =>
    intro m h
    rcases hf : f m with ⟨_ | _ | _, m1⟩
    · exact ⟨m, by rw [hf], by simp [retryAttempts, hf]⟩
    · have hstep : retryAttempts (n + 1) f m = retryAttempts n f m1 := by
        simp [retryAttempts, hf]
      rw [hstep] at h ⊢
      exact ih m1 h
    · simp [retryAttempts, hf] at h

/-- C9, as stated, fails for the read function: the invoker that line 62-64 puts around
the `GetProject` call may run it again.  With an invoker that hands on every run that
returns `nil` and has one retry for errors its catcher catches, a `GetProject` call that
times out, which is a failure other than `ProjectNotExist`, makes the read function call
`GetProject` twice and return a retry timeout, not the error wrapped as
`GetProject got an error: ... .`. -/
theorem resourceAlicloudLogProjectRead_counterexample :
    (∀ f d m, (f d m).1 = none → Invoker.Run sampleCaught 1 f d m = f d m) ∧
    timeoutMeta.GetProject "project-a" = .error sampleTimeoutError ∧
    sampleCommon.IsExceptedError (.sdk sampleTimeoutError) sampleCommon.ProjectNotExist
      = false ∧
    (resourceAlicloudLogProjectRead sampleCommon (Invoker.Run sampleCaught 1)
        { id := "project-a" } timeoutMeta).1
      ≠ some (.errorf ("GetProject got an error: " ++ sampleTimeoutError.text ++ ".")) ∧
    (resourceAlicloudLogProjectRead sampleCommon (Invoker.Run sampleCaught 1)
        { id := "project-a" } timeoutMeta).1
      = some (.errorf "Retry timeout and got an error: GetProject got an error: net/http: request canceled (Client.Timeout exceeded while awaiting headers)..") ∧
    (resourceAlicloudLogProjectRead sampleCommon (Invoker.Run sampleCaught 1)
        { id := "project-a" } timeoutMeta).2.2.log
      = [Call.GetProject "project-a", Call.GetProject "project-a"] := by
  refine ⟨fun f d m h => Invoker.Run_nil sampleCaught 1 f d m h, rfl, by decide, by decide,
    by decide, by decide⟩

/-- C9, amended: `resourceAlicloudLogProjectRead` reconciles a vanished project.  For
every state and every `GetProject` outcome, each run of the function handed to the
invoker makes one `GetProject` call for the ID and does this: on `ProjectNotExist` it
clears the ID to `""` and returns `nil`, leaving `name` and `description`; on any other
error it returns that error, wrapped as `GetProject got an error: ... .`, with the
state unchanged; on success it sets `name` and `description` to those of the project
returned, with the ID unchanged.  The read function is the invoker's `Run` applied to
this function.  So, with an invoker that hands on a run that returns `nil`, the read
function does the first and the third; and with an invoker that hands on a run whose
error no catcher catches, it does the second for every error, other than
`ProjectNotExist`, whose wrapped form no catcher catches. -/
theorem resourceAlicloudLogProjectRead_reconciles (c : Common) (d : LogProjectData)
    (m : Meta) :
    (∀ err, m.GetProject d.id = .error err →
      c.IsExceptedError (.sdk err) c.ProjectNotExist = true →
      resourceAlicloudLogProjectRead.func1 c d m =
        (none, { id := "", name := d.name, description := d.description },
          m.call (Call.GetProject d.id))) ∧
    (∀ err, m.GetProject d.id = .error err →
      c.IsExceptedError (.sdk err) c.ProjectNotExist = false →
      resourceAlicloudLogProjectRead.func1 c d m =
        (some (.errorf ("GetProject got an error: " ++ err.text ++ ".")), d,
          m.call (Call.GetProject d.id))) ∧
    (∀ project, m.GetProject d.id = .ok project →
      resourceAlicloudLogProjectRead.func1 c d m =
        (none, { id := d.id, name := project.Name, description := project.Description },
          m.call (Call.GetProject d.id))) ∧
    (∀ Run, resourceAlicloudLogProjectRead c Run d m
      = Run (resourceAlicloudLogProjectRead.func1 c) d m) ∧
    (∀ Run : (LogProjectData → Meta → Option GoError × LogProjectData × Meta) →
        LogProjectData → Meta → Option GoError × LogProjectData × Meta,
      (∀ f d m, (f d m).1 = none → Run f d m = f d m) →
      (∀ err, m.GetProject d.id = .error err →
        c.IsExceptedError (.sdk err) c.ProjectNotExist = true →
        resourceAlicloudLogProjectRead c Run d m =
          (none, { id := "", name := d.name, description := d.description },
            m.call (Call.GetProject d.id))) ∧
      (∀ project, m.GetProject d.id = .ok project →
        resourceAlicloudLogProjectRead c Run d m =
          (none, { id := d.id, name := project.Name, description := project.Description },
            m.call (Call.GetProject d.id)))) ∧
    (∀ (Run : (LogProjectData → Meta → Option GoError × LogProjectData × Meta) →
        LogProjectData → Meta → Option GoError × LogProjectData × Meta)
      (caught : GoError → Bool),
      (∀ f d m err, (f d m).1 = some err → caught err = false → Run f d m = f d m) →
      ∀ err, m.GetProject d.id = .error err →
        c.IsExceptedError (.sdk err) c.ProjectNotExist = false →
        caught (.errorf ("GetProject got an error: " ++ err.text ++ ".")) = false →
        resourceAlicloudLogProjectRead c Run d m =
          (some (.errorf ("GetProject got an error: " ++ err.text ++ ".")), d,
            m.call (Call.GetProject d.id))) := by
  obtain ⟨h1, h2, h3, -, -⟩ := resourceAlicloudLogProjectRead.func1_cases c d m
  refine ⟨h1, h2, h3, fun _ => rfl, ?_, ?_⟩
  · intro Run hRun
    constructor
    · intro err hget hex
      have hf := h1 err hget hex
      unfold resourceAlicloudLogProjectRead
      rw [hRun _ d m (by rw [hf]), hf]
    · intro project hget
      have hf := h3 project hget
      unfold resourceAlicloudLogProjectRead
      rw [hRun _ d m (by rw [hf]), hf]
  · intro Run caught hErr err hget hex hc
    have hf := h2 err hget hex
    unfold resourceAlicloudLogProjectRead
    rw [hErr _ d m _ (by rw [hf]) hc, hf]

/-- Witness for the amended C9: the invoker with one retry, on a handle whose
`GetProject` call is refused with an error that the catcher does not catch. -/
theorem resourceAlicloudLogProjectRead_reconciles_witness :
    resourceAlicloudLogProjectRead sampleCommon (Invoker.Run sampleCaught 1)
      { id := "project-a" } deniedMeta =
      (some (.errorf ("GetProject got an error: " ++ sampleDeniedError.text ++ ".")),
        { id := "project-a" }, deniedMeta.call (Call.GetProject "project-a")) ∧
    resourceAlicloudLogProjectRead sampleCommon (Invoker.Run sampleCaught 1)
      { id := "project-a" } sampleMeta =
      (none, { id := "project-a", name := "project-a", description := "sample project" },
        sampleMeta.call (Call.GetProject "project-a")) :=
  ⟨(resourceAlicloudLogProjectRead_reconciles sampleCommon { id := "project-a" }
      deniedMeta).2.2.2.2.2 (Invoker.Run sampleCaught 1) sampleCaught
      (fun f d m err h hc => Invoker.Run_uncaught sampleCaught 1 f d m err h hc)
      sampleDeniedError rfl (by decide) (by decide),
   ((resourceAlicloudLogProjectRead_reconciles sampleCommon { id := "project-a" }
      sampleMeta).2.2.2.2.1 (Invoker.Run sampleCaught 1)
      (fun f d m h => Invoker.Run_nil sampleCaught 1 f d m h)).2
      { Name := "project-a", Description := "sample project" } rfl⟩

/-- C10: attempt classification of `resourceAlicloudLogProjectDelete`.  For every pair
of `DeleteProject` and `CheckProjectExist` outcomes, an attempt makes the
`DeleteProject` call and then the `CheckProjectExist` call, the latter exactly when
`DeleteProject` succeeded or failed with `ProjectNotExist` and not with
`LogClientTimeout`, which is looked at first.  The attempt succeeds (answers `nil`) if
and only if `DeleteProject` succeeded or failed with `ProjectNotExist`, and
`CheckProjectExist` was then called and returned `false` without error.  It is
retryable if and only if `DeleteProject` failed with `LogClientTimeout`, or
`CheckProjectExist` was called and failed with `LogClientTimeout` or reported the
project as existing.  Every other failure is non-retryable.  The delete function is
`resource.Retry` applied to the attempt.  Hence, with a retry helper that reports
success only by handing on an attempt that succeeded, the delete function reports
success only after an attempt in which `CheckProjectExist` was called last and
returned `false`; it never reports success while `CheckProjectExist` reports the
project as existing. -/
theorem resourceAlicloudLogProjectDelete_classification (c : Common) (d : LogProjectData)
    (m : Meta) :
    ((resourceAlicloudLogProjectDelete.func1 c d m).2.log
        = m.log ++ [Call.DeleteProject d.id] ∨
      (resourceAlicloudLogProjectDelete.func1 c d m).2.log
        = m.log ++ [Call.DeleteProject d.id, Call.CheckProjectExist d.id]) ∧
    ((resourceAlicloudLogProjectDelete.func1 c d m).2.log
        = m.log ++ [Call.DeleteProject d.id, Call.CheckProjectExist d.id] ↔
      (m.DeleteProject d.id = none ∨
        ∃ e, m.DeleteProject d.id = some e ∧
          c.IsExceptedErrors (.sdk e) [c.LogClientTimeout] = false ∧
          c.IsExceptedErrors (.sdk e) [c.ProjectNotExist] = true)) ∧
    ((resourceAlicloudLogProjectDelete.func1 c d m).1 = none ↔
      ((m.DeleteProject d.id = none ∨
          ∃ e, m.DeleteProject d.id = some e ∧
            c.IsExceptedErrors (.sdk e) [c.ProjectNotExist] = true) ∧
        (resourceAlicloudLogProjectDelete.func1 c d m).2.log
          = m.log ++ [Call.DeleteProject d.id, Call.CheckProjectExist d.id] ∧
        m.CheckProjectExist d.id = .ok false)) ∧
    (RetryError.retryable (resourceAlicloudLogProjectDelete.func1 c d m).1 = true ↔
      ((∃ e, m.DeleteProject d.id = some e ∧
          c.IsExceptedErrors (.sdk e) [c.LogClientTimeout] = true) ∨
        ((resourceAlicloudLogProjectDelete.func1 c d m).2.log
            = m.log ++ [Call.DeleteProject d.id, Call.CheckProjectExist d.id] ∧
          ((∃ e, m.CheckProjectExist d.id = .error e ∧
              c.IsExceptedErrors (.sdk e) [c.LogClientTimeout] = true) ∨
            m.CheckProjectExist d.id = .ok true)))) ∧
    (RetryError.nonRetryable (resourceAlicloudLogProjectDelete.func1 c d m).1 = true ↔
      ((resourceAlicloudLogProjectDelete.func1 c d m).1 ≠ none ∧
        ¬ ((∃ e, m.DeleteProject d.id = some e ∧
            c.IsExceptedErrors (.sdk e) [c.LogClientTimeout] = true) ∨
          ((resourceAlicloudLogProjectDelete.func1 c d m).2.log
              = m.log ++ [Call.DeleteProject d.id, Call.CheckProjectExist d.id] ∧
            ((∃ e, m.CheckProjectExist d.id = .error e ∧
                c.IsExceptedErrors (.sdk e) [c.LogClientTimeout] = true) ∨
              m.CheckProjectExist d.id = .ok true))))) ∧
    (m.CheckProjectExist d.id = .ok true →
      (resourceAlicloudLogProjectDelete.func1 c d m).1 ≠ none) ∧
    (∀ Retry, resourceAlicloudLogProjectDelete c Retry d m
      = Retry (resourceAlicloudLogProjectDelete.func1 c d) m) ∧
    (∀ Retry : (Meta → Option RetryError × Meta) → Meta → Option GoError × Meta,
      (∀ f m, (Retry f m).1 = none → ∃ m0, (f m0).1 = none ∧ (Retry f m).2 = (f m0).2) →
      (resourceAlicloudLogProjectDelete c Retry d m).1 = none →
      ∃ m0, m0.CheckProjectExist d.id = .ok false ∧
        (m0.DeleteProject d.id = none ∨
          ∃ e, m0.DeleteProject d.id = some e ∧
            c.IsExceptedErrors (.sdk e) [c.ProjectNotExist] = true) ∧
        (resourceAlicloudLogProjectDelete.func1 c d m0).1 = none ∧
        (resourceAlicloudLogProjectDelete c Retry d m).2
          = (resourceAlicloudLogProjectDelete.func1 c d m0).2 ∧
        (resourceAlicloudLogProjectDelete c Retry d m).2.log
          = m0.log ++ [Call.DeleteProject d.id, Call.CheckProjectExist d.id]) ∧
    (∀ Retry : (Meta → Option RetryError × Meta) → Meta → Option GoError × Meta,
      (∀ f m, (Retry f m).1 = none → ∃ m0, (f m0).1 = none ∧ (Retry f m).2 = (f m0).2) →
      (∀ m0 : Meta, m0.CheckProjectExist d.id = .ok true) →
      (resourceAlicloudLogProjectDelete c Retry d m).1 ≠ none) := by
  have hlevel : ∀ Retry : (Meta → Option RetryError × Meta) → Meta → Option GoError × Meta,
      (∀ f m, (Retry f m).1 = none → ∃ m0, (f m0).1 = none ∧ (Retry f m).2 = (f m0).2) →
      (resourceAlicloudLogProjectDelete c Retry d m).1 = none →
      ∃ m0, m0.CheckProjectExist d.id = .ok false ∧
        (m0.DeleteProject d.id = none ∨
          ∃ e, m0.DeleteProject d.id = some e ∧
            c.IsExceptedErrors (.sdk e) [c.ProjectNotExist] = true) ∧
        (resourceAlicloudLogProjectDelete.func1 c d m0).1 = none ∧
        (resourceAlicloudLogProjectDelete c Retry d m).2
          = (resourceAlicloudLogProjectDelete.func1 c d m0).2 ∧
        (resourceAlicloudLogProjectDelete c Retry d m).2.log
          = m0.log ++ [Call.DeleteProject d.id, Call.CheckProjectExist d.id] := by
    intro Retry hRetry hnil
    obtain ⟨m0, hm0, hstate⟩ := hRetry (resourceAlicloudLogProjectDelete.func1 c d) m hnil
    obtain ⟨-, -, hsucc, -⟩ := resourceAlicloudLogProjectDelete.func1_classes c d m0
    obtain ⟨hdel, hlog, hchk⟩ := hsucc.mp hm0
    refine ⟨m0, hchk, hdel, hm0, hstate, ?_⟩
    have hstate1 : (resourceAlicloudLogProjectDelete c Retry d m).2
        = (resourceAlicloudLogProjectDelete.func1 c d m0).2 := hstate
    rw [hstate1, hlog]
  obtain ⟨h1, h2, h3, h4, h5, h6⟩ := resourceAlicloudLogProjectDelete.func1_classes c d m
  refine ⟨h1, h2, h3, h4, h5, h6, fun _ => rfl, hlevel, ?_⟩
  intro Retry hRetry hall hnil
  obtain ⟨m0, hchk, -⟩ := hlevel Retry hRetry hnil
  rw [hall m0] at hchk
  cases hchk

/-- Witness for C10: three attempts at most, on two sample handles; on the first the
project is gone after the first attempt, on the second it stays. -/
theorem resourceAlicloudLogProjectDelete_classification_witness :
    (resourceAlicloudLogProjectDelete sampleCommon (retryAttempts 2) { id := "project-a" }
      sampleMeta).1 = none ∧
    (∃ m0 : Meta, m0.CheckProjectExist "project-a" = .ok false ∧
      (resourceAlicloudLogProjectDelete sampleCommon (retryAttempts 2)
          { id := "project-a" } sampleMeta).2.log
        = m0.log ++ [Call.DeleteProject "project-a", Call.CheckProjectExist "project-a"]) ∧
    (resourceAlicloudLogProjectDelete sampleCommon (retryAttempts 2) { id := "project-a" }
      { sampleMeta with CheckProjectExist := fun _ => .ok true }).1
      = some (.errorf "Deleting log project project-a timeout.") :=
  ⟨by decide,
   (((resourceAlicloudLogProjectDelete_classification sampleCommon { id := "project-a" }
      sampleMeta).2.2.2.2.2.2.2.1 (retryAttempts 2) (retryAttempts_nil 2) (by decide)).elim
      (fun m0 h => ⟨m0, h.1, h.2.2.2.2⟩)),
   by decide⟩

end Alicloud
